import Mathlib

/-!
Shallow embedding of the romaneio-parsing core of `src/app.py` (a Python
program that turns delivery-manifest text into per-note records), together
with theorems settling the specification claims.

Modelling conventions:
* Python strings are `String` / `List Char`; character indices coincide with
  list indices.
* Python regular-expression searches are embedded per pattern as
  deterministic functions.  Each embedding follows the engine's leftmost
  scan with greedy/lazy backtracking; where a quantified class is disjoint
  from what follows (for instance a whitespace run followed by a digit
  class) the backtracking is deterministic and the function computes the
  unique outcome.  Character classes are modelled over the characters the
  program manipulates: the digit class is ASCII 0-9 and the whitespace
  class is ASCII whitespace, the Latin-1 letters used by the labels get
  explicit case folding.
* Python float results are exact rationals (`PyFloat.finite q`),
  infinities and nan are explicit constructors; the parser accepts the
  grammar of Python's float constructor (surrounding whitespace, sign,
  inf/infinity/nan, decimal literals with optional exponent and
  underscores between digits).
* A Python dict with string keys is an association list in insertion
  order, so "the record has exactly these keys" is a statement about
  `List.map Prod.fst`.
-/

namespace Romaneio

/-! ## Characters, runs, stripping, slicing -/

/-- ASCII whitespace, the characters Python's str.strip and the regex
class backslash-s agree on for the documents at hand. -/
def isSpaceB (c : Char) : Bool :=
  c = ' ' || c = '\t' || c = '\n' || c = '\r' || c = '\x0b' || c = '\x0c'

/-- Length of the maximal whitespace prefix. -/
def wsRunLen : List Char → Nat
  | [] => 0
  | c :: cs => if isSpaceB c then wsRunLen cs + 1 else 0

/-- Length of the maximal ASCII-digit prefix. -/
def digitRunLen : List Char → Nat
  | [] => 0
  | c :: cs => if c.isDigit then digitRunLen cs + 1 else 0

/-- Remove trailing whitespace (the right half of Python str.strip). -/
def rstripL (l : List Char) : List Char :=
  (l.reverse.dropWhile isSpaceB).reverse

/-- Python str.strip on a character list. -/
def stripL (l : List Char) : List Char :=
  rstripL (l.dropWhile isSpaceB)

/-- Python text[s:e] on a character list. -/
def sliceL (cs : List Char) (s e : Nat) : List Char :=
  (cs.take e).drop s

/-- A line-break character for str.splitlines (the ASCII ones). -/
def isLineBreak (c : Char) : Bool :=
  c = '\n' || c = '\r' || c = '\x0b' || c = '\x0c'

/-- Python str.splitlines (ASCII line breaks, with a CRLF pair counting
as one break); the worker carries the reversed current line. -/
def splitlinesGo : List Char → List Char → List (List Char)
  | [], acc => if acc.isEmpty then [] else [acc.reverse]
  | '\r' :: '\n' :: cs, acc => acc.reverse :: splitlinesGo cs []
  | c :: cs, acc =>
      if isLineBreak c then acc.reverse :: splitlinesGo cs []
      else splitlinesGo cs (c :: acc)

/-- Python str.splitlines on a character list. -/
def splitlinesL (cs : List Char) : List (List Char) :=
  splitlinesGo cs []

/-- Case folding as Python's IGNORECASE sees the program's labels:
ASCII letters and the Latin-1 letters (accented vowels, c-cedilla)
fold by adding 32 to the code point. -/
def pyLower (c : Char) : Char :=
  if 'A' ≤ c && c ≤ 'Z' then Char.ofNat (c.toNat + 32)
  else if 0xC0 ≤ c.toNat && c.toNat ≤ 0xDE && c.toNat != 0xD7 then Char.ofNat (c.toNat + 32)
  else c

/-! ## Python float — parse_br_number (app.py lines 29-40) -/

/-- Result of Python's float constructor: an exact-rational model of the
finite values, plus signed infinity and nan. -/
inductive PyFloat where
  | finite : ℚ → PyFloat
  | inf : Bool → PyFloat
  | nan : PyFloat
deriving DecidableEq, Repr

/-- Digit value of an ASCII digit character. -/
def dig (c : Char) : Nat := c.toNat - 48

/-- Continue a digit run in which single underscores may sit between
digits (Python numeric-literal grammar): accumulated value, number of
digits consumed so far, rest of the input. -/
def goDigits : Nat → Nat → List Char → Nat × Nat × List Char
  | v, n, '_' :: c :: cs =>
      if c.isDigit then goDigits (v * 10 + dig c) (n + 1) cs
      else (v, n, '_' :: c :: cs)
  | v, n, c :: cs =>
      if c.isDigit then goDigits (v * 10 + dig c) (n + 1) cs
      else (v, n, c :: cs)
  | v, n, [] => (v, n, [])

/-- A digit run (with embedded underscores) that must start with a digit;
returns value, digit count and rest. -/
def digitsUnd : List Char → Option (Nat × Nat × List Char)
  | c :: cs => if c.isDigit then some (goDigits (dig c) 1 cs) else none
  | [] => none

/-- The optional exponent part and end of input for a float literal. -/
def parseExpPart (neg : Bool) (mant : ℚ) : List Char → Option PyFloat
  | [] => some (.finite (if neg then -mant else mant))
  | e :: r =>
      if pyLower e = 'e' then
        let (eneg, r2) : Bool × List Char :=
          match r with
          | '+' :: t => (false, t)
          | '-' :: t => (true, t)
          | t => (false, t)
        match digitsUnd r2 with
        | some (ev, _, []) =>
            let q : ℚ := mant * (10 : ℚ) ^ (if eneg then -(ev : ℤ) else (ev : ℤ))
            some (.finite (if neg then -q else q))
        | _ => none
      else none

/-- The decimal-literal part of Python's float grammar (after the sign):
digits [. digits] [exp] or . digits [exp]. -/
def parseDecimal (neg : Bool) (cs : List Char) : Option PyFloat :=
  match cs with
  | '.' :: rest =>
      match digitsUnd rest with
      | some (fv, fn, r) => parseExpPart neg ((fv : ℚ) / (10 : ℚ) ^ fn) r
      | none => none
  | _ =>
      match digitsUnd cs with
      | some (iv, _, r) =>
          match r with
          | '.' :: r2 =>
              match digitsUnd r2 with
              | some (fv, fn, r3) =>
                  parseExpPart neg ((iv : ℚ) + (fv : ℚ) / (10 : ℚ) ^ fn) r3
              | none => parseExpPart neg (iv : ℚ) r2
          | _ => parseExpPart neg (iv : ℚ) r
      | none => none

/-- Python's float constructor: it strips surrounding whitespace
itself, then an optional sign, then inf / infinity / nan
(case-insensitively) or a decimal literal; anything else fails (models
the ValueError).  The strip matters to parse_br_number: removing dots
can expose boundary whitespace that was interior before. -/
def parsePyFloat (cs0 : List Char) : Option PyFloat :=
  let (neg, cs) : Bool × List Char :=
    match stripL cs0 with
    | '+' :: t => (false, t)
    | '-' :: t => (true, t)
    | t => (false, t)
  let low := cs.map pyLower
  if low = "inf".data || low = "infinity".data then some (.inf neg)
  else if low = "nan".data then some (.nan)
  else parseDecimal neg cs

/-- app.py parse_br_number: None propagates, the string is stripped,
an empty strip is None, every dot is removed, commas become dots, and
the result goes through float with ValueError turned into None. -/
def parse_br_number (value : Option String) : Option PyFloat :=
  match value with
  | none => none
  | some v =>
      let text := stripL v.data
      if text.isEmpty then none
      else parsePyFloat ((text.filter (fun c => c ≠ '.')).map
            (fun c => if c = ',' then '.' else c))

/-! ## Dates — format_date_br (app.py lines 177-186) -/

/-- Days in a month with the proleptic-Gregorian leap rule, as Python's
datetime validates the day field. -/
def daysInMonth (y m : Nat) : Nat :=
  if m = 2 then (if y % 4 = 0 && (y % 100 != 0 || y % 400 = 0) then 29 else 28)
  else if m = 4 || m = 6 || m = 9 || m = 11 then 30 else 31

/-- Candidate parses of the strptime day directive (two-digit 01-31
first, then single-digit 1-9, the alternation order of CPython's
pattern). -/
def dayCands : List Char → List (Nat × List Char)
  | a :: b :: r =>
      (if a.isDigit && b.isDigit && decide (1 ≤ dig a * 10 + dig b) &&
          decide (dig a * 10 + dig b ≤ 31) then [(dig a * 10 + dig b, r)] else [])
      ++ (if a.isDigit && decide (1 ≤ dig a) then [(dig a, b :: r)] else [])
  | [a] => if a.isDigit && decide (1 ≤ dig a) then [(dig a, [])] else []
  | [] => []

/-- Candidate parses of the strptime month directive (two-digit 01-12
first, then single-digit 1-9). -/
def monthCands : List Char → List (Nat × List Char)
  | a :: b :: r =>
      (if a.isDigit && b.isDigit && decide (1 ≤ dig a * 10 + dig b) &&
          decide (dig a * 10 + dig b ≤ 12) then [(dig a * 10 + dig b, r)] else [])
      ++ (if a.isDigit && decide (1 ≤ dig a) then [(dig a, b :: r)] else [])
  | [a] => if a.isDigit && decide (1 ≤ dig a) then [(dig a, [])] else []
  | [] => []

/-- A four-digit year (the Y directive is exactly four digits). -/
def year4 : List Char → Option (Nat × List Char)
  | a :: b :: c :: d :: r =>
      if a.isDigit && b.isDigit && c.isDigit && d.isDigit then
        some (dig a * 1000 + dig b * 100 + dig c * 10 + dig d, r)
      else none
  | _ => none

/-- A two-digit year, mapped through CPython's pivot (00-68 is 2000+,
69-99 is 1900+). -/
def year2 : List Char → Option (Nat × List Char)
  | a :: b :: r =>
      if a.isDigit && b.isDigit then
        let yy := dig a * 10 + dig b
        some ((if yy ≤ 68 then 2000 + yy else 1900 + yy), r)
      else none
  | _ => none

/-- First candidate whose continuation succeeds (regex alternation with
backtracking). -/
def firstSome : List (Nat × List Char) → ((Nat × List Char) → Option (Nat × Nat × Nat)) →
    Option (Nat × Nat × Nat)
  | [], _ => none
  | c :: cs, f =>
      match f c with
      | some r => some r
      | none => firstSome cs f

/-- Syntactic match of strptime with format day/month/4-digit-year,
requiring the whole string to be consumed. -/
def matchDMY (cs : List Char) : Option (Nat × Nat × Nat) :=
  firstSome (dayCands cs) fun dc =>
    match dc.2 with
    | '/' :: r2 =>
        firstSome (monthCands r2) fun mc =>
          match mc.2 with
          | '/' :: r4 =>
              match year4 r4 with
              | some (y, []) => some (dc.1, mc.1, y)
              | _ => none
          | _ => none
    | _ => none

/-- Syntactic match of strptime with format day/month/2-digit-year. -/
def matchDMy (cs : List Char) : Option (Nat × Nat × Nat) :=
  firstSome (dayCands cs) fun dc =>
    match dc.2 with
    | '/' :: r2 =>
        firstSome (monthCands r2) fun mc =>
          match mc.2 with
          | '/' :: r4 =>
              match year2 r4 with
              | some (y, []) => some (dc.1, mc.1, y)
              | _ => none
          | _ => none
    | _ => none

/-- The datetime construction check after the regex match: the year is
at least 1 and the day fits the month (otherwise strptime raises and
the caller falls through). -/
def validDate : Option (Nat × Nat × Nat) → Option (Nat × Nat × Nat)
  | some (d, m, y) => if 1 ≤ y && d ≤ daysInMonth y m then some (d, m, y) else none
  | none => none

/-- datetime.strptime with the first format of app.py. -/
def strptime_dmY (cs : List Char) : Option (Nat × Nat × Nat) :=
  validDate (matchDMY cs)

/-- datetime.strptime with the second format of app.py. -/
def strptime_dmy (cs : List Char) : Option (Nat × Nat × Nat) :=
  validDate (matchDMy cs)

/-- A number zero-padded to two digits. -/
def pad2 (n : Nat) : String := if n < 10 then "0" ++ toString n else toString n

/-- A number zero-padded to four digits (the years at hand have four). -/
def pad4 (n : Nat) : String :=
  if n < 10 then "000" ++ toString n
  else if n < 100 then "00" ++ toString n
  else if n < 1000 then "0" ++ toString n
  else toString n

/-- strftime with the canonical day/month/year format. -/
def renderDMY : Nat × Nat × Nat → String
  | (d, m, y) => pad2 d ++ "/" ++ pad2 m ++ "/" ++ pad4 y

/-- app.py format_date_br: falsy input gives the empty string, the two
formats are tried in order, and when both raise the input comes back
stripped. -/
def format_date_br (date_str : String) : String :=
  if date_str = "" then ""
  else
    match strptime_dmY date_str.data with
    | some t => renderDMY t
    | none =>
        match strptime_dmy date_str.data with
        | some t => renderDMY t
        | none => String.mk (stripL date_str.data)

/-! ## Pattern embedding: labelled-capture searches

Each re.search of app.py is embedded as an attempt function on a suffix
(one start position of the scan); the scan over suffixes, leftmost
first, is searchCap.  The attempt functions determinise the quantifier
backtracking as explained at each definition. -/

/-- Match a sequence of character alternatives (the case-insensitive
label of a pattern) at the start of the input; characters are folded
with pyLower, the returned value is the rest of the input. -/
def matchSets : List (List Char) → List Char → Option (List Char)
  | [], cs => some cs
  | _ :: _, [] => none
  | set :: ps, c :: cs => if set.contains (pyLower c) then matchSets ps cs else none

/-- Each character of a literal as a one-element alternative list. -/
def litSets (s : String) : List (List Char) := s.data.map (fun c => [c])

/-- Case-sensitive literal match, returning the rest of the input. -/
def matchLit : List Char → List Char → Option (List Char)
  | [], cs => some cs
  | _ :: _, [] => none
  | p :: ps, c :: cs => if p = c then matchLit ps cs else none

/-- The last character of a list that is not a newline, if any (the
character a backtracking whitespace-star hands to a rest-of-line
capture when everything to the right of the label is whitespace). -/
def lastNonNl : List Char → Option Char
  | [] => none
  | c :: t =>
      match lastNonNl t with
      | some d => some d
      | none => if c = '\n' then none else some c

/-- Capture of a whitespace-star followed by a one-or-more
rest-of-line group: the greedy whitespace run ends at the first
non-whitespace character, where the capture runs to the end of the
line; if the whitespace runs to the end of the input the star backs
up to the last non-newline whitespace character, whose one-character
capture survives (and strips to the empty string). -/
def capRestOfLine (r : List Char) : Option (List Char) :=
  let r' := r.dropWhile isSpaceB
  if r'.isEmpty then (lastNonNl r).map (fun c => [c])
  else some (r'.takeWhile (fun c => c ≠ '\n'))

/-- A digits-dots-commas token character. -/
def isNumTok (c : Char) : Bool := c.isDigit || c = '.' || c = ','

/-- Leftmost search: try the attempt at every suffix, left to right,
including the empty suffix. -/
def searchCap {α : Type} (attempt : List Char → Option α) : List Char → Option α
  | [] => attempt []
  | c :: t =>
      match attempt (c :: t) with
      | some r => some r
      | none => searchCap attempt t

/-- The capture of a successful find in app.py is stripped; a failed
find is the empty string. -/
def strOfFind (o : Option (List Char)) : String :=
  match o with
  | some l => String.mk (stripL l)
  | none => ""

/-! ## Header patterns (extract_header_fields, app.py lines 43-70) -/

/-- Label of the emission-date pattern. -/
def labelEmissao : List (List Char) := litSets "emiss" ++ [['a', 'ã']] ++ litSets "o:"

/-- Label of the forecast-date pattern. -/
def labelPrevisao : List (List Char) := litSets "previs" ++ [['a', 'ã']] ++ litSets "o:"

/-- Label of the driver pattern. -/
def labelMotorista : List (List Char) := litSets "motorista:"

/-- Label of the vehicle pattern. -/
def labelVeiculo : List (List Char) := litSets "ve" ++ [['i', 'í']] ++ litSets "culo:"

/-- Attempt of the two date patterns: label, whitespace star, then a
greedy 8-to-10 run of digits and slashes (the star cannot back up
because the class has no whitespace). -/
def attemptDateTok (label : List (List Char)) (u : List Char) : Option (List Char) :=
  (matchSets label u).bind fun r =>
    let r' := r.dropWhile isSpaceB
    let cap := r'.takeWhile (fun c => c.isDigit || c = '/')
    if 8 ≤ cap.length then some (cap.take 10) else none

/-- Attempt of the rest-of-line patterns (driver, vehicle, and the
name, order, city and address fields of a block). -/
def attemptRestOfLine (label : List (List Char)) (u : List Char) : Option (List Char) :=
  (matchSets label u).bind capRestOfLine

/-- Attempt of the cargo pattern: the label has no colon, a one-or-more
run of colons and whitespace separates it from a one-or-more
digits-dots-commas capture (neither class overlaps the other, so both
runs are the maximal ones). -/
def attemptCarga (u : List Char) : Option (List Char) :=
  (matchSets (litSets "carga") u).bind fun r =>
    let k := (r.takeWhile (fun c => c = ':' || isSpaceB c)).length
    if k = 0 then none
    else
      let cap := (r.drop k).takeWhile isNumTok
      if cap.isEmpty then none else some cap

/-- The character class of the route line: letters (with the Latin-1
accented range), digits, space and light punctuation. -/
def isRotaClass (c : Char) : Bool :=
  ('A' ≤ c && c ≤ 'Z') || ('a' ≤ c && c ≤ 'z') ||
  (0xC0 ≤ c.toNat && c.toNat ≤ 0xFF) || c.isDigit ||
  c = ' ' || c = '.' || c = ',' || c = '-' || c = '(' || c = ')'

/-- Splits of the whitespace-plus of the route pattern: some prefix of
the whitespace run (tried longest first, one or more characters) must
leave a non-empty all-class remainder reaching the end of the line. -/
def rotaTail (rest : List Char) : Nat → Bool
  | 0 => false
  | j + 1 =>
      (let r := rest.drop (j + 1)
       !r.isEmpty && r.all isRotaClass) || rotaTail rest j

/-- re.match of the route pattern on a stripped line (which contains no
newline, so the end anchor is the end of the list): two to four
digits, whitespace, then the class to the end.  A digit run longer
than four cannot match because the quantifier would stop on a digit. -/
def rotaMatchB (line : List Char) : Bool :=
  let a := digitRunLen line
  2 ≤ a && a ≤ 4 &&
    (let rest := line.drop a
     rotaTail rest (wsRunLen rest))

/-- The shipment-level header, the dict returned by
extract_header_fields (always exactly these six string fields). -/
structure Header where
  rota : String
  data_emissao : String
  data_previsao : String
  motorista : String
  veiculo : String
  carga : String
deriving DecidableEq, Repr

/-- app.py extract_header_fields: the route is the first non-empty
stripped line matching the route pattern, the five labelled fields are
independent leftmost searches over the whole text. -/
def extract_header_fields (text : String) : Header :=
  let cs := text.data
  let lines := ((splitlinesL cs).map stripL).filter (fun l => !l.isEmpty)
  { rota := match lines.find? rotaMatchB with
      | some l => String.mk l
      | none => ""
    data_emissao := strOfFind (searchCap (attemptDateTok labelEmissao) cs)
    data_previsao := strOfFind (searchCap (attemptDateTok labelPrevisao) cs)
    motorista := strOfFind (searchCap (attemptRestOfLine labelMotorista) cs)
    veiculo := strOfFind (searchCap (attemptRestOfLine labelVeiculo) cs)
    carga := strOfFind (searchCap attemptCarga cs) }

/-! ## Block segmentation (split_notes_blocks, app.py lines 73-91) -/

/-- The note-id group: three to five digits, a hyphen, three or more
digits, matched at the start of the input.  The first quantifier can
only stop where the digit run ends (a digit cannot match the hyphen),
so a leading run longer than five digits fails; both digit runs are
maximal.  Returns the length of the token. -/
def matchNoteToken (cs : List Char) : Option Nat :=
  let a := digitRunLen cs
  if 3 ≤ a && a ≤ 5 then
    match cs.drop a with
    | '-' :: rest =>
        let b := digitRunLen rest
        if 3 ≤ b then some (a + 1 + b) else none
    | _ => none
  else none

/-- One attempt of the note-pattern finditer at start position p: the
start-or-newline prefix, then the greedy whitespace star, which the
digit group forces to end exactly at the whitespace run's end.
Returns group start and match end. -/
def tryNoteAt (cs : List Char) (p : Nat) : Option (Nat × Nat) :=
  let go : Nat → Option (Nat × Nat) := fun q0 =>
    let s := q0 + wsRunLen (cs.drop q0)
    (matchNoteToken (cs.drop s)).map (fun L => (s, s + L))
  if p = 0 then go 0
  else if cs.get? p = some '\n' then go (p + 1)
  else none

/-- One attempt of the fallback finditer at start position p: the
start-or-newline prefix, the whitespace star, the case-sensitive
literal of the order label, more whitespace, then one or more digits.
Returns the match start p itself (the code records m.start()) and the
match end. -/
def tryPedidoAt (cs : List Char) (p : Nat) : Option (Nat × Nat) :=
  let go : Nat → Option (Nat × Nat) := fun q0 =>
    let w := wsRunLen (cs.drop q0)
    let q := q0 + w
    (matchLit "Pedido:".data (cs.drop q)).bind fun r =>
      let k := wsRunLen r
      let b := digitRunLen (r.drop k)
      if 1 ≤ b then some (p, q + 7 + k + b) else none
  if p = 0 then go 0
  else if cs.get? p = some '\n' then go (p + 1)
  else none

/-- finditer: try each start position left to right, continuing after
the end of every (non-empty) match. -/
def scanMatches (attempt : Nat → Option (Nat × Nat)) (len : Nat) : Nat → Nat → List (Nat × Nat)
  | 0, _ => []
  | fuel + 1, p =>
      match attempt p with
      | some m => m :: scanMatches attempt len fuel m.2
      | none => if p < len then scanMatches attempt len fuel (p + 1) else []

/-- The matches of the note pattern over the whole text. -/
def noteMatches (cs : List Char) : List (Nat × Nat) :=
  scanMatches (tryNoteAt cs) cs.length (cs.length + 1) 0

/-- The recorded offsets of the primary strategy (group starts). -/
def notePositions (cs : List Char) : List Nat :=
  (noteMatches cs).map Prod.fst

/-- The matches of the fallback pattern over the whole text. -/
def pedidoMatches (cs : List Char) : List (Nat × Nat) :=
  scanMatches (tryPedidoAt cs) cs.length (cs.length + 1) 0

/-- The recorded offsets of the fallback strategy (match starts). -/
def pedidoPositions (cs : List Char) : List Nat :=
  (pedidoMatches cs).map Prod.fst

/-- The block-building loop of split_notes_blocks: each offset opens a
block that runs to the next offset, the last to the end of the text,
and every block is stripped. -/
def buildBlocks (cs : List Char) : List Nat → List String
  | [] => []
  | s :: rest =>
      let e := match rest with
        | [] => cs.length
        | s' :: _ => s'
      String.mk (stripL (sliceL cs s e)) :: buildBlocks cs rest

/-- app.py split_notes_blocks: note-pattern offsets, the order-label
offsets only when there are none, the empty list when both are empty,
otherwise the block-building loop. -/
def split_notes_blocks (text : String) : List String :=
  let cs := text.data
  let positions := notePositions cs
  let positions := if positions.isEmpty then pedidoPositions cs else positions
  if positions.isEmpty then [] else buildBlocks cs positions

/-! ## Block parsing (parse_block, app.py lines 94-148) -/

/-- A record value: Python str, float, or None. -/
inductive Value where
  | str : String → Value
  | num : PyFloat → Value
  | none : Value
deriving DecidableEq, Repr

/-- A Python float-or-None as a record value. -/
def numValue : Option PyFloat → Value
  | Option.none => Value.none
  | Option.some f => Value.num f

/-- The fixed column list of app.py. -/
def COLUMNS : List String :=
  ["rota", "data_emissao", "data_previsao", "motorista", "veiculo", "carga",
   "numero_nota", "codigo_cliente", "nome_cliente", "pedido", "cidade",
   "peso_pedido", "endereco", "total_nota", "forma_recebimento", "valor_recebimento"]

/-- The header dict as pairs, in its insertion order. -/
def headerPairs (h : Header) : List (String × Value) :=
  [("rota", Value.str h.rota), ("data_emissao", Value.str h.data_emissao),
   ("data_previsao", Value.str h.data_previsao), ("motorista", Value.str h.motorista),
   ("veiculo", Value.str h.veiculo), ("carga", Value.str h.carga)]

/-- The guard loop at the end of parse_block: every column missing
from the record is appended with value None. -/
def ensureKeys : List String → List (String × Value) → List (String × Value)
  | [], rec => rec
  | k :: ks, rec =>
      ensureKeys ks (if rec.any (fun p => p.1 == k) then rec else rec ++ [(k, Value.none)])

/-- The anchored note-id find of parse_block: the start anchor admits
only position zero, the whitespace star ends where the whitespace run
does, then three to five digits, a hyphen and one or more digits, all
runs maximal.  Returns the raw capture. -/
def attemptNumero (cs : List Char) : Option (List Char) :=
  let k := wsRunLen cs
  let t := cs.drop k
  let a := digitRunLen t
  if 3 ≤ a && a ≤ 5 then
    match t.drop a with
    | '-' :: r =>
        let b := digitRunLen r
        if 1 ≤ b then some (t.take (a + 1 + b)) else none
    | _ => none
  else none

/-- re.match of the code-and-name pattern on the name line: one or
more digits (maximal, since a shorter run leaves a digit facing the
whitespace star or hyphen), whitespace, a hyphen, then a rest-of-line
capture. -/
def matchCodeName (cs : List Char) : Option (List Char × List Char) :=
  let a := digitRunLen cs
  if 1 ≤ a then
    match (cs.drop a).dropWhile isSpaceB with
    | '-' :: rest => (capRestOfLine rest).map (fun cap => (cs.take a, cap))
    | _ => none
  else none

/-- Attempt of the weight pattern: the label allows whitespace between
its two words, then a whitespace star and a digits-dots-commas
capture. -/
def attemptPeso (u : List Char) : Option (List Char) :=
  (matchSets (litSets "peso") u).bind fun r =>
    (matchSets (litSets "pedido:") (r.dropWhile isSpaceB)).bind fun r2 =>
      let cap := (r2.dropWhile isSpaceB).takeWhile isNumTok
      if cap.isEmpty then none else some cap

/-- Whitespace-plus: at least one whitespace character, then the
maximal run. -/
def matchWsPlus : List Char → Option (List Char)
  | c :: t => if isSpaceB c then some (t.dropWhile isSpaceB) else none
  | [] => none

/-- An optional currency prefix: an optional letter r, an optional
dollar sign, then a whitespace star (no backtracking can help, since
none of these can open the digit class). -/
def dropCurrency (r : List Char) : List Char :=
  let r1 := match r with
    | c :: t => if pyLower c = 'r' then t else c :: t
    | [] => []
  let r2 := match r1 with
    | '$' :: t => t
    | l => l
  r2.dropWhile isSpaceB

/-- Attempt of the invoice-total pattern: the three label words
separated by whitespace-plus, a whitespace star, the optional
currency prefix, and the digits-dots-commas capture. -/
def attemptTotal (u : List Char) : Option (List Char) :=
  (matchSets (litSets "total") u).bind fun r =>
    (matchWsPlus r).bind fun r1 =>
      (matchSets (litSets "da") r1).bind fun r2 =>
        (matchWsPlus r2).bind fun r3 =>
          (matchSets (litSets "nota:") r3).bind fun r4 =>
            let cap := (dropCurrency (r4.dropWhile isSpaceB)).takeWhile isNumTok
            if cap.isEmpty then none else some cap

/-- The tail of the receivable pattern after the lazy group: a
whitespace star, the value label, a whitespace star, the currency
prefix and the digits-dots-commas capture. -/
def dupTailCheck (v : List Char) : Option (List Char) :=
  (matchSets (litSets "valor:") (v.dropWhile isSpaceB)).bind fun r =>
    let cap := (dropCurrency (r.dropWhile isSpaceB)).takeWhile isNumTok
    if cap.isEmpty then none else some cap

/-- The lazy dot-star of the receivable pattern (DOTALL): grow the
group one character at a time until the tail matches; the accumulator
carries the group reversed. -/
def dupInner (acc : List Char) : List Char → Option (List Char × List Char)
  | [] =>
      match dupTailCheck [] with
      | some cap => some (acc.reverse, cap)
      | none => none
  | c :: t =>
      match dupTailCheck (c :: t) with
      | some cap => some (acc.reverse, cap)
      | none => dupInner (c :: acc) t

/-- The greedy whitespace star before the lazy group: the longest
whitespace prefix is tried first, shrinking on failure. -/
def dupOuter (r : List Char) : Nat → Option (List Char × List Char)
  | 0 => dupInner [] r
  | w + 1 =>
      match dupInner [] (r.drop (w + 1)) with
      | some res => some res
      | none => dupOuter r w

/-- Attempt of the receivable pattern: the three label words, then the
whitespace star, the lazy group and the tail. -/
def attemptDup (u : List Char) : Option (List Char × List Char) :=
  (matchSets (litSets "duplicata") u).bind fun r0 =>
    (matchWsPlus r0).bind fun r1 =>
      (matchSets (litSets "a") r1).bind fun r2 =>
        (matchWsPlus r2).bind fun r3 =>
          (matchSets (litSets "receber") r3).bind fun r4 =>
            dupOuter r4 (wsRunLen r4)

/-- Label of the address pattern. -/
def labelEndereco : List (List Char) := litSets "endere" ++ [['c', 'ç']] ++ litSets "o:"

/-- The numero_nota find of parse_block (app.py line 101). -/
def numero_nota_f (cs : List Char) : String := strOfFind (attemptNumero cs)

/-- The nome_line find of parse_block (app.py line 103). -/
def nome_line_f (cs : List Char) : String :=
  strOfFind (searchCap (attemptRestOfLine (litSets "nome:")) cs)

/-- The code-and-name split of parse_block (app.py lines 104-111):
both empty on an empty name line, the two stripped groups when the
code pattern matches, otherwise the whole line as the name. -/
def codigo_nome_f (cs : List Char) : String × String :=
  if nome_line_f cs ≠ "" then
    match matchCodeName (nome_line_f cs).data with
    | some (c, n) => (String.mk (stripL c), String.mk (stripL n))
    | none => ("", nome_line_f cs)
  else ("", "")

/-- The pedido find of parse_block (app.py line 113). -/
def pedido_f (cs : List Char) : String :=
  strOfFind (searchCap (attemptRestOfLine (litSets "pedido:")) cs)

/-- The cidade find of parse_block (app.py line 114). -/
def cidade_f (cs : List Char) : String :=
  strOfFind (searchCap (attemptRestOfLine (litSets "cidade:")) cs)

/-- The peso_pedido field of parse_block (app.py line 115). -/
def peso_pedido_f (cs : List Char) : Option PyFloat :=
  parse_br_number (some (strOfFind (searchCap attemptPeso cs)))

/-- The endereco find of parse_block (app.py line 116). -/
def endereco_f (cs : List Char) : String :=
  strOfFind (searchCap (attemptRestOfLine labelEndereco) cs)

/-- The total_nota field of parse_block (app.py line 117). -/
def total_nota_f (cs : List Char) : Option PyFloat :=
  parse_br_number (some (strOfFind (searchCap attemptTotal cs)))

/-- The receivable search of parse_block (app.py lines 120-124). -/
def dup_f (cs : List Char) : Option (List Char × List Char) := searchCap attemptDup cs

/-- forma_recebimento (app.py lines 119, 126). -/
def forma_f (cs : List Char) : String :=
  match dup_f cs with
  | some (g1, _) => String.mk (stripL g1)
  | none => ""

/-- valor_recebimento (app.py lines 119, 127). -/
def valor_f (cs : List Char) : Option PyFloat :=
  match dup_f cs with
  | some (_, g2) => parse_br_number (some (String.mk g2))
  | none => none

/-- The ten per-note entries of the record literal of parse_block, in
their insertion order. -/
def blockPairs (cs : List Char) : List (String × Value) :=
  [("numero_nota", Value.str (numero_nota_f cs)),
   ("codigo_cliente", Value.str (codigo_nome_f cs).1),
   ("nome_cliente", Value.str (codigo_nome_f cs).2),
   ("pedido", Value.str (pedido_f cs)),
   ("cidade", Value.str (cidade_f cs)),
   ("peso_pedido", numValue (peso_pedido_f cs)),
   ("endereco", Value.str (endereco_f cs)),
   ("total_nota", numValue (total_nota_f cs)),
   ("forma_recebimento", Value.str (forma_f cs)),
   ("valor_recebimento", numValue (valor_f cs))]

/-- app.py parse_block: the record literal merges the header dict with
the per-note fields, and the guard loop appends None for any missing
column (a no-op, since all sixteen are present). -/
def parse_block (block : String) (header : Header) : List (String × Value) :=
  ensureKeys COLUMNS (headerPairs header ++ blockPairs block.data)

/-! ## Pipeline (parse_text_to_records, app.py lines 151-160, and the
per-document loop of main, lines 204-222) -/

/-- app.py parse_text_to_records: header once, blocks once, then the
append loop over blocks. -/
def parse_text_to_records (text : String) : List (List (String × Value)) :=
  let header := extract_header_fields text
  let blocks := split_notes_blocks text
  blocks.foldl (fun records block => records ++ [parse_block block header]) []

/-- The date normalisation main applies to the two date columns of a
document's records before concatenation. -/
def normalizeRecordDates (rec : List (String × Value)) : List (String × Value) :=
  rec.map fun kv =>
    if kv.1 = "data_emissao" || kv.1 = "data_previsao" then
      (kv.1, match kv.2 with
        | Value.str s => Value.str (format_date_br s)
        | v => v)
    else kv

/-- The accumulation loop of main over uploaded documents: documents
with no records are skipped, the others contribute their
date-normalised records in order, and the concatenation is in
submission order. -/
def process_documents (texts : List String) : List (List (String × Value)) :=
  texts.foldl
    (fun acc t =>
      let recs := parse_text_to_records t
      if recs.isEmpty then acc else acc ++ recs.map normalizeRecordDates)
    []

/-- First value of a key in a record (the dict lookup). -/
def lookupV (rec : List (String × Value)) (k : String) : Value :=
  match rec.find? (fun p => p.1 == k) with
  | some p => p.2
  | none => Value.none

/-- The note-id shape of the specification: three to five digits, a
hyphen, then at least three digits, covering the whole string. -/
def isNoteShapeB (s : String) : Bool :=
  let t := s.data
  let a := digitRunLen t
  (3 ≤ a && a ≤ 5) &&
    match t.drop a with
    | '-' :: r =>
        let b := digitRunLen r
        3 ≤ b && t.length = a + 1 + b
    | _ => false

/-- A value that is a string. -/
def isStrV (v : Value) : Prop := ∃ s, v = Value.str s

/-- A value that is numeric or None. -/
def isNumOrNullV (v : Value) : Prop := v = Value.none ∨ ∃ f, v = Value.num f

/-- The normalisation parse_br_number applies before calling float:
strip, remove dots, turn commas into dots. -/
def brDigits (s : String) : List Char :=
  ((stripL s.data).filter (fun c => c ≠ '.')).map (fun c => if c = ',' then '.' else c)

/-- The input document of the end-to-end property of the specification. -/
def c1_input : String :=
  "600 PEDRO LEOPOLDO\nEmissão: 01/01/2024\nPrevisão: 02/01/2024\nMotorista: João\nVeículo: ABC-1234\n1552-24995\nNome: 10 - Cliente X\nPedido: 99\nCidade: BH\nPeso Pedido: 10,5\nEndereço: Rua A\nTotal da Nota: R$ 100,00\nDuplicata a Receber Boleto Valor: R$ 100,00"

/-! ## Helper lemmas -/

theorem foldl_append_eq_map {α β : Type} (f : α → β) :
    ∀ (l : List α) (acc : List β), l.foldl (fun r b => r ++ [f b]) acc = acc ++ l.map f := by
  intro l
  induction l with
  | nil => intro acc; simp
  | cons b bs ih => intro acc; simp [List.foldl_cons, ih]

theorem parse_text_to_records_eq_map (text : String) :
    parse_text_to_records text =
      (split_notes_blocks text).map (fun b => parse_block b (extract_header_fields text)) := by
  simpa [parse_text_to_records] using
    foldl_append_eq_map (fun b => parse_block b (extract_header_fields text))
      (split_notes_blocks text) []

theorem ensureKeys_eq_self (cols : List String) (rec : List (String × Value))
    (h : ∀ k ∈ cols, rec.any (fun p => p.1 == k) = true) : ensureKeys cols rec = rec := by
  induction cols with
  | nil => rfl
  | cons k ks ih =>
      have hk := h k (by simp)
      show ensureKeys ks (if rec.any (fun p => p.1 == k) then rec
        else rec ++ [(k, Value.none)]) = rec
      rw [hk, if_pos rfl]
      exact ih (fun k2 hk2 => h k2 (by simp [hk2]))

theorem parse_block_eq_pairs (b : String) (h : Header) :
    parse_block b h = headerPairs h ++ blockPairs b.data := by
  apply ensureKeys_eq_self
  intro k hk
  fin_cases hk <;> rfl

theorem parse_br_number_nonempty (s : String) (h : stripL s.data ≠ []) :
    parse_br_number (some s) = parsePyFloat (brDigits s) := by
  have he : (stripL s.data).isEmpty = false := by
    simpa [List.isEmpty_iff] using h
  simp [parse_br_number, he, brDigits]

theorem numValue_isNumOrNull (o : Option PyFloat) : isNumOrNullV (numValue o) := by
  cases o with
  | none => exact Or.inl rfl
  | some f => exact Or.inr ⟨f, rfl⟩

theorem parse_block_keys (b : String) (h : Header) :
    (parse_block b h).map Prod.fst = COLUMNS := by
  rw [parse_block_eq_pairs]; rfl

/-! ## Run lemmas -/

theorem digitRunLen_le_length : ∀ t : List Char, digitRunLen t ≤ t.length := by
  intro t
  induction t with
  | nil => simp [digitRunLen]
  | cons c r ih =>
      by_cases hc : c.isDigit <;> simp [digitRunLen, hc] <;> omega

theorem take_digitRun_digits : ∀ t : List Char, ∀ c ∈ t.take (digitRunLen t), c.isDigit = true := by
  intro t
  induction t with
  | nil => simp [digitRunLen]
  | cons c r ih =>
      by_cases hc : c.isDigit
      · simpa [digitRunLen, hc] using fun x hx => ih x hx
      · simp [digitRunLen, hc]

theorem drop_digitRun : ∀ t : List Char,
    t.drop (digitRunLen t) = [] ∨
      ∃ c r, t.drop (digitRunLen t) = c :: r ∧ c.isDigit = false := by
  intro t
  induction t with
  | nil => exact Or.inl rfl
  | cons c r ih =>
      by_cases hc : c.isDigit
      · simpa [digitRunLen, hc] using ih
      · exact Or.inr ⟨c, r, by simp [digitRunLen, hc], by simpa using hc⟩

theorem digitRunLen_append_digits : ∀ xs ys : List Char, (∀ c ∈ xs, c.isDigit = true) →
    digitRunLen (xs ++ ys) = xs.length + digitRunLen ys := by
  intro xs
  induction xs with
  | nil => simp
  | cons c r ih =>
      intro ys h
      have hc : c.isDigit = true := h c (by simp)
      simp [digitRunLen, hc, ih ys (fun x hx => h x (by simp [hx]))]
      omega

theorem digitRunLen_all_digits : ∀ t : List Char, (∀ c ∈ t, c.isDigit = true) →
    digitRunLen t = t.length := by
  intro t h
  simpa using digitRunLen_append_digits t [] h

theorem digitRunLen_cons_nondigit (c : Char) (t : List Char) (h : c.isDigit = false) :
    digitRunLen (c :: t) = 0 := by
  simp [digitRunLen, h]

theorem wsRunLen_le_length : ∀ t : List Char, wsRunLen t ≤ t.length := by
  intro t
  induction t with
  | nil => simp [wsRunLen]
  | cons c r ih =>
      by_cases hc : isSpaceB c <;> simp [wsRunLen, hc] <;> omega

theorem take_wsRun_spaces : ∀ t : List Char, ∀ c ∈ t.take (wsRunLen t), isSpaceB c = true := by
  intro t
  induction t with
  | nil => simp [wsRunLen]
  | cons c r ih =>
      by_cases hc : isSpaceB c
      · simpa [wsRunLen, hc] using fun x hx => ih x hx
      · simp [wsRunLen, hc]

theorem wsRunLen_cons_nonspace (c : Char) (t : List Char) (h : isSpaceB c = false) :
    wsRunLen (c :: t) = 0 := by
  simp [wsRunLen, h]

theorem isSpaceB_of_isDigit (c : Char) (h : c.isDigit = true) : isSpaceB c = false := by
  revert h
  simp only [Char.isDigit, isSpaceB, decide_eq_true_eq, Bool.or_eq_true, Bool.and_eq_true]
  rintro ⟨h1, h2⟩
  simp only [Bool.or_eq_false_iff, decide_eq_false_iff_not]
  revert h1 h2
  rcases c with ⟨v, hv⟩
  intro h1 h2
  refine ⟨⟨⟨⟨⟨?_, ?_⟩, ?_⟩, ?_⟩, ?_⟩, ?_⟩ <;>
    (intro hc; rw [hc] at h1 h2; revert h1 h2; decide)

/-! ## matchLit and matchSets -/

theorem matchLit_spec : ∀ pat l r : List Char, matchLit pat l = some r → l = pat ++ r := by
  intro pat
  induction pat with
  | nil =>
      intro l r h
      simp [matchLit] at h
      simp [h]
  | cons p ps ih =>
      intro l r h
      cases l with
      | nil => simp [matchLit] at h
      | cons c t =>
          by_cases hc : p = c
          · subst hc
            simp [matchLit] at h
            simp [ih t r h]
          · simp [matchLit, hc] at h

/-! ## Scanner lemmas -/

theorem scanMatches_ge (attempt : Nat → Option (Nat × Nat)) (len : Nat)
    (hspec : ∀ p m, attempt p = some m → p ≤ m.1 ∧ m.1 < m.2) :
    ∀ (fuel p : Nat), ∀ m ∈ scanMatches attempt len fuel p, p ≤ m.1 := by
  intro fuel
  induction fuel with
  | zero => intro p m hm; simp [scanMatches] at hm
  | succ fuel ih =>
      intro p m hm
      rw [scanMatches] at hm
      cases hatt : attempt p with
      | some m0 =>
          simp only [hatt] at hm
          rcases List.mem_cons.1 hm with rfl | hm2
          · exact (hspec p m hatt).1
          · have h1 := ih m0.2 m hm2
            have h2 := hspec p m0 hatt
            omega
      | none =>
          simp only [hatt] at hm
          split at hm
          · have := ih (p + 1) m hm
            omega
          · simp at hm

theorem scanMatches_attempts (attempt : Nat → Option (Nat × Nat)) (len : Nat) :
    ∀ (fuel p : Nat), ∀ m ∈ scanMatches attempt len fuel p, ∃ q, attempt q = some m := by
  intro fuel
  induction fuel with
  | zero => intro p m hm; simp [scanMatches] at hm
  | succ fuel ih =>
      intro p m hm
      rw [scanMatches] at hm
      cases hatt : attempt p with
      | some m0 =>
          simp only [hatt] at hm
          rcases List.mem_cons.1 hm with rfl | hm2
          · exact ⟨p, hatt⟩
          · exact ih m0.2 m hm2
      | none =>
          simp only [hatt] at hm
          split at hm
          · exact ih (p + 1) m hm
          · simp at hm

theorem scanMatches_chain (attempt : Nat → Option (Nat × Nat)) (len : Nat)
    (hspec : ∀ p m, attempt p = some m → p ≤ m.1 ∧ m.1 < m.2) :
    ∀ (fuel p : Nat), List.Chain' (fun a b : Nat × Nat => a.2 ≤ b.1)
      (scanMatches attempt len fuel p) := by
  intro fuel
  induction fuel with
  | zero => intro p; simp [scanMatches]
  | succ fuel ih =>
      intro p
      rw [scanMatches]
      cases hatt : attempt p with
      | some m0 =>
          simp only [hatt]
          rw [List.chain'_cons']
          refine ⟨fun y hy => ?_, ih m0.2⟩
          have hym : y ∈ scanMatches attempt len fuel m0.2 := List.mem_of_mem_head? hy
          exact scanMatches_ge attempt len hspec fuel m0.2 y hym
      | none =>
          simp only [hatt]
          split
          · exact ih (p + 1)
          · simp

theorem chain_fst_lt : ∀ ms : List (Nat × Nat),
    List.Chain' (fun a b : Nat × Nat => a.2 ≤ b.1) ms →
    (∀ m ∈ ms, m.1 < m.2) →
    List.Chain' (· < ·) (ms.map Prod.fst) := by
  intro ms
  induction ms with
  | nil => simp
  | cons m ms ih =>
      intro hc hb
      rw [List.chain'_cons'] at hc
      rw [List.map_cons, List.chain'_cons']
      refine ⟨fun y hy => ?_, ih hc.2 (fun x hx => hb x (by simp [hx]))⟩
      rw [List.head?_map] at hy
      simp only [Option.mem_def, Option.map_eq_some'] at hy
      obtain ⟨m2, hm2, rfl⟩ := hy
      have h1 := hc.1 m2 hm2
      have h2 := hb m (by simp)
      omega

/-! ## Attempt specifications -/

theorem matchNoteToken_spec (t : List Char) (L : Nat) (h : matchNoteToken t = some L) :
    3 ≤ digitRunLen t ∧ digitRunLen t ≤ 5 ∧
    ∃ rest, t.drop (digitRunLen t) = '-' :: rest ∧ 3 ≤ digitRunLen rest ∧
      L = digitRunLen t + 1 + digitRunLen rest := by
  simp only [matchNoteToken] at h
  split at h
  case isTrue hcond =>
      simp only [Bool.and_eq_true, decide_eq_true_eq] at hcond
      split at h
      case h_1 rest heq =>
          split at h
          case isTrue hb =>
              simp only [Option.some.injEq] at h
              exact ⟨hcond.1, hcond.2, rest, heq, by simpa using hb, h.symm⟩
          case isFalse => exact absurd h (by simp)
      case h_2 => exact absurd h (by simp)
  case isFalse => exact absurd h (by simp)

theorem matchNoteToken_bounds (t : List Char) (L : Nat) (h : matchNoteToken t = some L) :
    7 ≤ L ∧ L ≤ t.length := by
  obtain ⟨ha3, ha5, rest, heq, hb3, hL⟩ := matchNoteToken_spec t L h
  have h1 : digitRunLen t ≤ t.length := digitRunLen_le_length t
  have h2 : (t.drop (digitRunLen t)).length = t.length - digitRunLen t := List.length_drop _ _
  rw [heq] at h2
  have h3 : digitRunLen rest ≤ rest.length := digitRunLen_le_length rest
  simp at h2
  omega

theorem tryNoteAt_spec (cs : List Char) (p s e : Nat) (h : tryNoteAt cs p = some (s, e)) :
    p ≤ s ∧ ∃ L, matchNoteToken (cs.drop s) = some L ∧ e = s + L := by
  have hgo : ∀ q0 : Nat,
      (matchNoteToken (cs.drop (q0 + wsRunLen (cs.drop q0)))).map
          (fun L => (q0 + wsRunLen (cs.drop q0), q0 + wsRunLen (cs.drop q0) + L)) =
        some (s, e) →
      q0 ≤ s ∧ ∃ L, matchNoteToken (cs.drop s) = some L ∧ e = s + L := by
    intro q0 hmap
    rw [Option.map_eq_some'] at hmap
    obtain ⟨L, hL, heq⟩ := hmap
    rw [Prod.mk.injEq] at heq
    obtain ⟨h1, h2⟩ := heq
    subst h1
    subst h2
    exact ⟨Nat.le_add_right _ _, L, hL, rfl⟩
  unfold tryNoteAt at h
  split at h
  case isTrue hp =>
      subst hp
      exact hgo 0 h
  case isFalse hp =>
      split at h
      case isTrue hnl =>
          have := hgo (p + 1) h
          exact ⟨by omega, this.2⟩
      case isFalse => exact absurd h (by simp)

theorem tryNoteAt_ge (cs : List Char) : ∀ p m, tryNoteAt cs p = some m → p ≤ m.1 ∧ m.1 < m.2 := by
  intro p m h
  obtain ⟨hps, L, hL, he⟩ := tryNoteAt_spec cs p m.1 m.2 (by simpa using h)
  have := (matchNoteToken_bounds _ _ hL).1
  omega

theorem drop_cons_of_get? {α : Type} (l : List α) :
    ∀ (n : Nat) (a : α), l.get? n = some a → l.drop n = a :: l.drop (n + 1) := by
  induction l with
  | nil => intro n a h; simp [List.get?] at h
  | cons x xs ih =>
      intro n a h
      cases n with
      | zero => simp at h; simp [h]
      | succ n => simpa using ih n a (by simpa using h)

theorem tryPedidoAt_spec (cs : List Char) (p s e : Nat) (h : tryPedidoAt cs p = some (s, e)) :
    s = p ∧ p < e ∧ e ≤ cs.length ∧
    ∃ q r, p ≤ q ∧ q < e ∧ cs.drop q = 'P' :: r ∧
      (∀ c ∈ sliceL cs p q, isSpaceB c = true) := by
  have hgo : ∀ q0 : Nat,
      ((matchLit "Pedido:".data (cs.drop (q0 + wsRunLen (cs.drop q0)))).bind fun r =>
        if 1 ≤ digitRunLen (r.drop (wsRunLen r)) then
          some (p, q0 + wsRunLen (cs.drop q0) + 7 + wsRunLen r +
            digitRunLen (r.drop (wsRunLen r)))
        else none) = some (s, e) →
      s = p ∧ e ≤ cs.length ∧
      ∃ r, cs.drop (q0 + wsRunLen (cs.drop q0)) = 'P' :: r ∧
        q0 + wsRunLen (cs.drop q0) + 8 ≤ e := by
    intro q0 hbind
    rw [Option.bind_eq_some] at hbind
    obtain ⟨r, hlit, hif⟩ := hbind
    split at hif
    case isFalse => exact absurd hif (by simp)
    case isTrue hb =>
        simp only [Option.some.injEq, Prod.mk.injEq] at hif
        obtain ⟨hs, he⟩ := hif
        have hdec := matchLit_spec _ _ _ hlit
        have hlen : (cs.drop (q0 + wsRunLen (cs.drop q0))).length =
            cs.length - (q0 + wsRunLen (cs.drop q0)) := List.length_drop _ _
        rw [hdec] at hlen
        simp only [List.length_append] at hlen
        have h7 : ("Pedido:".data : List Char).length = 7 := rfl
        rw [h7] at hlen
        have hne : ¬ cs.length ≤ q0 + wsRunLen (cs.drop q0) := by
          intro hle
          rw [List.drop_eq_nil_of_le hle] at hdec
          simp at hdec
        have hk : wsRunLen r ≤ r.length := wsRunLen_le_length r
        have hb2 : digitRunLen (r.drop (wsRunLen r)) ≤ r.length - wsRunLen r := by
          have := digitRunLen_le_length (r.drop (wsRunLen r))
          simpa [List.length_drop] using this
        refine ⟨hs.symm, by omega, "edido:".data ++ r, ?_, by omega⟩
        rw [hdec]
        rfl
  unfold tryPedidoAt at h
  split at h
  case isTrue hp =>
      subst hp
      obtain ⟨hs, he, r, hdrop, hqe⟩ := hgo 0 h
      refine ⟨hs, by omega, he, 0 + wsRunLen (cs.drop 0), r, by omega, by omega, hdrop, ?_⟩
      intro c hcmem
      have hc2 : c ∈ cs.take (wsRunLen cs) := by simpa [sliceL] using hcmem
      exact take_wsRun_spaces cs c hc2
  case isFalse hp =>
      split at h
      case isTrue hnl =>
          obtain ⟨hs, he, r, hdrop, hqe⟩ := hgo (p + 1) h
          refine ⟨hs, by omega, he, p + 1 + wsRunLen (cs.drop (p + 1)), r,
            by omega, by omega, hdrop, ?_⟩
          intro c hcmem
          simp only [sliceL] at hcmem
          rw [List.drop_take] at hcmem
          have hdropp : cs.drop p = '\n' :: cs.drop (p + 1) := drop_cons_of_get? cs p '\n' hnl
          rw [hdropp] at hcmem
          have htk : p + 1 + wsRunLen (cs.drop (p + 1)) - p =
              wsRunLen (cs.drop (p + 1)) + 1 := by omega
          rw [htk] at hcmem
          simp only [List.take_succ_cons] at hcmem
          rcases List.mem_cons.1 hcmem with rfl | hcmem2
          · rfl
          · exact take_wsRun_spaces (cs.drop (p + 1)) c hcmem2
      case isFalse => exact absurd h (by simp)

theorem tryPedidoAt_ge (cs : List Char) :
    ∀ p m, tryPedidoAt cs p = some m → p ≤ m.1 ∧ m.1 < m.2 := by
  intro p m h
  obtain ⟨hs, hlt, _, _⟩ := tryPedidoAt_spec cs p m.1 m.2 (by simpa using h)
  omega

/-! ## Blocks -/

theorem mem_buildBlocks (cs : List Char) :
    ∀ (ms : List (Nat × Nat)) (bl : String),
      bl ∈ buildBlocks cs (ms.map Prod.fst) →
      List.Chain' (fun a b : Nat × Nat => a.2 ≤ b.1) ms →
      (∀ m ∈ ms, m.2 ≤ cs.length) →
      ∃ s e endp, (s, e) ∈ ms ∧ e ≤ endp ∧
        bl = String.mk (stripL (sliceL cs s endp)) := by
  intro ms
  induction ms with
  | nil => intro bl hb _ _; simp [buildBlocks] at hb
  | cons m ms ih =>
      intro bl hb hc hlen
      cases ms with
      | nil =>
          rw [show buildBlocks cs ((m :: []).map Prod.fst) =
            [String.mk (stripL (sliceL cs m.1 cs.length))] from rfl] at hb
          rw [List.mem_singleton] at hb
          exact ⟨m.1, m.2, cs.length, by simp, hlen m (by simp), hb⟩
      | cons m2 ms2 =>
          rw [show buildBlocks cs ((m :: m2 :: ms2).map Prod.fst) =
            String.mk (stripL (sliceL cs m.1 m2.1)) ::
              buildBlocks cs ((m2 :: ms2).map Prod.fst) from rfl] at hb
          rw [List.chain'_cons'] at hc
          rcases List.mem_cons.1 hb with hb1 | hb2
          · exact ⟨m.1, m.2, m2.1, by simp, hc.1 m2 (by simp), hb1⟩
          · obtain ⟨s, e, endp, hmem, hle, heq⟩ :=
              ih bl hb2 hc.2 (fun x hx => hlen x (by simp [hx]))
            exact ⟨s, e, endp, by simp [hmem], hle, heq⟩

theorem tryNoteAt_le_length (cs : List Char) (p : Nat) (m : Nat × Nat)
    (h : tryNoteAt cs p = some m) : m.2 ≤ cs.length := by
  obtain ⟨hps, L, hL, he⟩ := tryNoteAt_spec cs p m.1 m.2 (by simpa using h)
  obtain ⟨h7, hlen⟩ := matchNoteToken_bounds _ _ hL
  have hd : (cs.drop m.1).length = cs.length - m.1 := List.length_drop _ _
  omega

theorem noteMatches_chain (cs : List Char) :
    List.Chain' (fun a b : Nat × Nat => a.2 ≤ b.1) (noteMatches cs) :=
  scanMatches_chain _ _ (tryNoteAt_ge cs) _ _

theorem noteMatches_facts (cs : List Char) :
    ∀ m ∈ noteMatches cs, m.1 < m.2 ∧ m.2 ≤ cs.length := by
  intro m hm
  obtain ⟨q, hq⟩ := scanMatches_attempts _ _ _ _ m hm
  exact ⟨(tryNoteAt_ge cs q m hq).2, tryNoteAt_le_length cs q m hq⟩

theorem notePositions_chain (cs : List Char) :
    List.Chain' (· < ·) (notePositions cs) :=
  chain_fst_lt _ (noteMatches_chain cs) (fun m hm => (noteMatches_facts cs m hm).1)

theorem pedidoMatches_chain (cs : List Char) :
    List.Chain' (fun a b : Nat × Nat => a.2 ≤ b.1) (pedidoMatches cs) :=
  scanMatches_chain _ _ (tryPedidoAt_ge cs) _ _

theorem pedidoMatches_facts (cs : List Char) :
    ∀ m ∈ pedidoMatches cs, m.1 < m.2 ∧ m.2 ≤ cs.length := by
  intro m hm
  obtain ⟨q, hq⟩ := scanMatches_attempts _ _ _ _ m hm
  obtain ⟨hs, hlt, hle, _⟩ := tryPedidoAt_spec cs q m.1 m.2 (by simpa using hq)
  exact ⟨hlt.trans_le (le_refl _) |>.trans_le (le_refl _) |> fun _ => by omega, hle⟩

theorem pedidoPositions_chain (cs : List Char) :
    List.Chain' (· < ·) (pedidoPositions cs) :=
  chain_fst_lt _ (pedidoMatches_chain cs) (fun m hm => (pedidoMatches_facts cs m hm).1)

/-! ## Strip lemmas -/

theorem dropWhile_all_false {p : Char → Bool} :
    ∀ l : List Char, (∀ c ∈ l, p c = false) → l.dropWhile p = l := by
  intro l h
  cases l with
  | nil => rfl
  | cons c t => simp [List.dropWhile_cons, h c (by simp)]

theorem dropWhile_append_all {p : Char → Bool} (xs ys : List Char)
    (h : ∀ c ∈ xs, p c = true) : (xs ++ ys).dropWhile p = ys.dropWhile p := by
  induction xs with
  | nil => rfl
  | cons c t ih =>
      rw [List.cons_append, List.dropWhile_cons, if_pos (h c (by simp))]
      exact ih (fun x hx => h x (by simp [hx]))

theorem rstripL_all_nonspace (l : List Char) (h : ∀ c ∈ l, isSpaceB c = false) :
    rstripL l = l := by
  unfold rstripL
  rw [dropWhile_all_false l.reverse (fun c hc => h c (List.mem_reverse.1 hc))]
  exact List.reverse_reverse l

theorem rstripL_append_of_nil (xs ys : List Char) (h : rstripL ys = []) :
    rstripL (xs ++ ys) = rstripL xs := by
  have h2 : ys.reverse.dropWhile isSpaceB = [] := by
    have := congrArg List.reverse h
    simpa [rstripL] using this
  unfold rstripL
  rw [List.reverse_append, List.dropWhile_append, h2]
  simp

theorem rstripL_append_of_ne (xs ys : List Char) (h : rstripL ys ≠ []) :
    rstripL (xs ++ ys) = xs ++ rstripL ys := by
  have h2 : ys.reverse.dropWhile isSpaceB ≠ [] := by
    intro h0
    exact h (by simp [rstripL, h0])
  have h3 : (ys.reverse.dropWhile isSpaceB).isEmpty = false := by
    simpa [List.isEmpty_iff] using h2
  unfold rstripL
  rw [List.reverse_append, List.dropWhile_append, h3]
  simp [List.reverse_append]

theorem stripL_nonspace_prefix (tok rest : List Char) (htok : tok ≠ [])
    (hns : ∀ c ∈ tok, isSpaceB c = false) :
    stripL (tok ++ rest) = tok ++ rstripL rest := by
  unfold stripL
  have hd : (tok ++ rest).dropWhile isSpaceB = tok ++ rest := by
    cases tok with
    | nil => exact absurd rfl htok
    | cons c t =>
        rw [List.cons_append, List.dropWhile_cons, if_neg (by simp [hns c (by simp)])]
  rw [hd]
  by_cases h : rstripL rest = []
  · rw [rstripL_append_of_nil _ _ h, rstripL_all_nonspace tok hns, h, List.append_nil]
  · exact rstripL_append_of_ne _ _ h

theorem stripL_all_nonspace (l : List Char) (h : ∀ c ∈ l, isSpaceB c = false) :
    stripL l = l := by
  unfold stripL
  rw [dropWhile_all_false l h]
  exact rstripL_all_nonspace l h

theorem rstripL_cons_nonspace (c : Char) (l : List Char) (h : isSpaceB c = false) :
    ∃ l2, rstripL (c :: l) = c :: l2 := by
  by_cases h0 : rstripL l = []
  · refine ⟨[], ?_⟩
    rw [show (c :: l) = [c] ++ l from rfl, rstripL_append_of_nil _ _ h0]
    simp [rstripL, List.dropWhile_cons, h]
  · refine ⟨rstripL l, ?_⟩
    rw [show (c :: l) = [c] ++ l from rfl, rstripL_append_of_ne _ _ h0]
    rfl

theorem rstripL_cons_structure (c : Char) (l : List Char) :
    rstripL (c :: l) = [] ∨ ∃ l2, rstripL (c :: l) = c :: l2 := by
  by_cases hc : isSpaceB c
  · by_cases h0 : rstripL l = []
    · left
      rw [show (c :: l) = [c] ++ l from rfl, rstripL_append_of_nil _ _ h0]
      simp [rstripL, List.dropWhile_cons, hc]
    · right
      refine ⟨rstripL l, ?_⟩
      rw [show (c :: l) = [c] ++ l from rfl, rstripL_append_of_ne _ _ h0]
      rfl
  · exact Or.inr (rstripL_cons_nonspace c l (by simpa using hc))

/-! ## The three modes of the segmenter -/

theorem split_eq_empty (text : String) (h1 : notePositions text.data = [])
    (h2 : pedidoPositions text.data = []) : split_notes_blocks text = [] := by
  simp [split_notes_blocks, h1, h2]

theorem split_eq_primary (text : String) (h1 : notePositions text.data ≠ []) :
    split_notes_blocks text = buildBlocks text.data (notePositions text.data) := by
  have h1e : (notePositions text.data).isEmpty = false := by
    simpa [List.isEmpty_iff] using h1
  simp [split_notes_blocks, h1e]

theorem split_eq_fallback (text : String) (h1 : notePositions text.data = [])
    (h2 : pedidoPositions text.data ≠ []) :
    split_notes_blocks text = buildBlocks text.data (pedidoPositions text.data) := by
  have h2e : (pedidoPositions text.data).isEmpty = false := by
    simpa [List.isEmpty_iff] using h2
  simp [split_notes_blocks, h1, h2e]

/-! ## C3 — the segmenter's two-tier strategy -/

/-- C3: the segmenter records the line-start note-id offsets; only when
there are none does it record the line-start order-label offsets; when
both are empty it returns the empty list; otherwise the blocks are the
stripped spans from each recorded offset to the next (the last running
to the end of the text), in ascending offset order. -/
theorem c3_segmenter_strategy (text : String) :
    (notePositions text.data = [] → pedidoPositions text.data = [] →
      split_notes_blocks text = []) ∧
    (notePositions text.data ≠ [] →
      split_notes_blocks text = buildBlocks text.data (notePositions text.data) ∧
      List.Chain' (· < ·) (notePositions text.data)) ∧
    (notePositions text.data = [] → pedidoPositions text.data ≠ [] →
      split_notes_blocks text = buildBlocks text.data (pedidoPositions text.data) ∧
      List.Chain' (· < ·) (pedidoPositions text.data)) := by
  exact ⟨split_eq_empty text,
    fun h1 => ⟨split_eq_primary text h1, notePositions_chain text.data⟩,
    fun h1 h2 => ⟨split_eq_fallback text h1 h2, pedidoPositions_chain text.data⟩⟩

/-- Witness for C3: a text with no matches, a text with a note id, and
a text with only the order label. -/
theorem c3_witness :
    split_notes_blocks "xy" = [] ∧
    (split_notes_blocks "123-456" =
        buildBlocks "123-456".data (notePositions "123-456".data) ∧
      List.Chain' (· < ·) (notePositions "123-456".data)) ∧
    (split_notes_blocks "Pedido: 5" =
        buildBlocks "Pedido: 5".data (pedidoPositions "Pedido: 5".data) ∧
      List.Chain' (· < ·) (pedidoPositions "Pedido: 5".data)) :=
  ⟨(c3_segmenter_strategy "xy").1 (by decide) (by decide),
   (c3_segmenter_strategy "123-456").2.1 (by decide),
   (c3_segmenter_strategy "Pedido: 5").2.2 (by decide) (by decide)⟩

/-! ## C2 — the fixed sixteen-key schema -/

/-- C2: every record the pipeline produces carries exactly the sixteen
fixed keys, in the fixed order, none absent and none extra; the three
weight and money fields are numeric or None and every other field is a
string. -/
theorem c2_record_schema (text : String) (rec : List (String × Value))
    (hmem : rec ∈ parse_text_to_records text) :
    rec.map Prod.fst = COLUMNS ∧
    ∀ kv ∈ rec,
      (kv.1 = "peso_pedido" ∨ kv.1 = "total_nota" ∨ kv.1 = "valor_recebimento" →
        isNumOrNullV kv.2) ∧
      (¬(kv.1 = "peso_pedido" ∨ kv.1 = "total_nota" ∨ kv.1 = "valor_recebimento") →
        isStrV kv.2) := by
  rw [parse_text_to_records_eq_map] at hmem
  obtain ⟨b, hb, rfl⟩ := List.mem_map.1 hmem
  refine ⟨parse_block_keys b _, ?_⟩
  intro kv hkv
  rw [parse_block_eq_pairs] at hkv
  simp only [headerPairs, blockPairs, List.mem_append, List.mem_cons,
    List.not_mem_nil, or_false] at hkv
  rcases hkv with (rfl | rfl | rfl | rfl | rfl | rfl) |
    (rfl | rfl | rfl | rfl | rfl | rfl | rfl | rfl | rfl | rfl) <;>
    refine ⟨fun hq => ?_, fun hq => ?_⟩ <;>
    first
      | exact ⟨_, rfl⟩
      | exact numValue_isNumOrNull _
      | exact absurd hq (by simp)
      | exact absurd (by simp) hq

/-- Witness for C2: the schema facts at the one record of a small
fallback document. -/
theorem c2_witness :
    ((parse_text_to_records "Pedido: 7\nCidade: X").headD []).map Prod.fst = COLUMNS ∧
    ∀ kv ∈ (parse_text_to_records "Pedido: 7\nCidade: X").headD [],
      (kv.1 = "peso_pedido" ∨ kv.1 = "total_nota" ∨ kv.1 = "valor_recebimento" →
        isNumOrNullV kv.2) ∧
      (¬(kv.1 = "peso_pedido" ∨ kv.1 = "total_nota" ∨ kv.1 = "valor_recebimento") →
        isStrV kv.2) :=
  c2_record_schema "Pedido: 7\nCidade: X" _ (by decide)

/-! ## C7 — header sharing, record order, document concatenation -/

theorem foldl_skip_empty {α β γ : Type} (g : α → List β) (h : α → List γ)
    (hge : ∀ t, (g t).isEmpty = true → h t = []) :
    ∀ (l : List α) (acc : List γ),
      l.foldl (fun acc t => if (g t).isEmpty then acc else acc ++ h t) acc =
        acc ++ (l.map h).flatten := by
  intro l
  induction l with
  | nil => intro acc; simp
  | cons t ts ih =>
      intro acc
      rw [List.foldl_cons, List.map_cons, List.flatten_cons]
      cases he : (g t).isEmpty with
      | true =>
          rw [if_pos rfl, ih acc, hge t he]
          simp
      | false =>
          rw [if_neg (by simp), ih (acc ++ h t)]
          simp [List.append_assoc]

/-- C7: all records of a document share the header extracted once
(their first six pairs are that header, unmodified); records appear in
the order of their blocks; and the multi-document output is the
concatenation of the per-document (date-normalised) record sequences
in submission order, with no reordering or deduplication. -/
theorem c7_pipeline_order :
    (∀ texts : List String, process_documents texts =
      (texts.map (fun t => (parse_text_to_records t).map normalizeRecordDates)).flatten) ∧
    (∀ text : String, parse_text_to_records text =
      (split_notes_blocks text).map (fun b => parse_block b (extract_header_fields text))) ∧
    (∀ (text : String) (rec : List (String × Value)), rec ∈ parse_text_to_records text →
      rec.take 6 = headerPairs (extract_header_fields text)) := by
  refine ⟨?_, parse_text_to_records_eq_map, ?_⟩
  · intro texts
    have hfold := foldl_skip_empty (fun t => parse_text_to_records t)
      (fun t => (parse_text_to_records t).map normalizeRecordDates)
      (fun t ht => by
        have h0 : parse_text_to_records t = [] := List.isEmpty_iff.1 ht
        show List.map normalizeRecordDates (parse_text_to_records t) = []
        rw [h0]
        rfl) texts []
    simpa [process_documents] using hfold
  · intro text rec hmem
    rw [parse_text_to_records_eq_map] at hmem
    obtain ⟨b, hb, rfl⟩ := List.mem_map.1 hmem
    rw [parse_block_eq_pairs]
    rw [show (6 : Nat) = (headerPairs (extract_header_fields text)).length from rfl]
    exact List.take_left _ _

/-- Witness for C7: the header-prefix fact at the one record of a
small fallback document. -/
theorem c7_witness :
    ((parse_text_to_records "Pedido: 8").headD []).take 6 =
      headerPairs (extract_header_fields "Pedido: 8") :=
  c7_pipeline_order.2.2 "Pedido: 8" _ (by decide)

/-! ## The anchored note-id find on a segmented block -/

theorem attemptNumero_head_nondigit (c : Char) (l : List Char)
    (hns : isSpaceB c = false) (hnd : c.isDigit = false) :
    attemptNumero (c :: l) = none := by
  simp [attemptNumero, wsRunLen_cons_nonspace c l hns, digitRunLen_cons_nondigit c l hnd]

theorem attemptNumero_exact (d1 d2 z : List Char)
    (hd1dig : ∀ c ∈ d1, c.isDigit = true) (hd2dig : ∀ c ∈ d2, c.isDigit = true)
    (ha3 : 3 ≤ d1.length) (ha5 : d1.length ≤ 5) (hb1 : 1 ≤ d2.length)
    (hz : z = [] ∨ ∃ c l2, z = c :: l2 ∧ c.isDigit = false) :
    attemptNumero ((d1 ++ '-' :: d2) ++ z) = some (d1 ++ '-' :: d2) := by
  obtain ⟨c0, d1t, hd1c⟩ : ∃ c0 d1t, d1 = c0 :: d1t := by
    cases d1 with
    | nil => simp at ha3
    | cons x xs => exact ⟨x, xs, rfl⟩
  have hws : wsRunLen ((d1 ++ '-' :: d2) ++ z) = 0 := by
    rw [hd1c, List.cons_append, List.cons_append]
    exact wsRunLen_cons_nonspace _ _
      (isSpaceB_of_isDigit c0 (hd1dig c0 (by simp [hd1c])))
  have hrearr : (d1 ++ '-' :: d2) ++ z = d1 ++ ('-' :: (d2 ++ z)) := by simp
  have hdash : ('-' : Char).isDigit = false := by decide
  have hrun : digitRunLen ((d1 ++ '-' :: d2) ++ z) = d1.length := by
    rw [hrearr, digitRunLen_append_digits d1 _ hd1dig, digitRunLen_cons_nondigit _ _ hdash]
    omega
  have hdropa : ((d1 ++ '-' :: d2) ++ z).drop d1.length = '-' :: (d2 ++ z) := by
    rw [hrearr]
    exact List.drop_left d1 _
  have hrun2 : digitRunLen (d2 ++ z) = d2.length := by
    rw [digitRunLen_append_digits d2 z hd2dig]
    rcases hz with rfl | ⟨c, l2, rfl, hcd⟩
    · simp [digitRunLen]
    · rw [digitRunLen_cons_nondigit _ _ hcd]
      omega
  have htok : d1.length + 1 + d2.length = (d1 ++ '-' :: d2).length := by
    simp
    omega
  simp only [attemptNumero, hws, List.drop_zero, hrun, hdropa, hrun2]
  rw [if_pos (by simp [ha3, ha5]), if_pos (by simpa using hb1), htok]
  rw [List.take_left]

theorem isNoteShapeB_exact (d1 d2 : List Char)
    (hd1dig : ∀ c ∈ d1, c.isDigit = true) (hd2dig : ∀ c ∈ d2, c.isDigit = true)
    (ha3 : 3 ≤ d1.length) (ha5 : d1.length ≤ 5) (hb3 : 3 ≤ d2.length) :
    isNoteShapeB (String.mk (d1 ++ '-' :: d2)) = true := by
  have hdata : (String.mk (d1 ++ '-' :: d2)).data = d1 ++ '-' :: d2 := rfl
  have hdash : ('-' : Char).isDigit = false := by decide
  have hrun : digitRunLen (d1 ++ '-' :: d2) = d1.length := by
    rw [digitRunLen_append_digits d1 _ hd1dig, digitRunLen_cons_nondigit _ _ hdash]
    omega
  have hdropa : (d1 ++ '-' :: d2).drop d1.length = '-' :: d2 := List.drop_left d1 _
  have hd2run : digitRunLen d2 = d2.length := digitRunLen_all_digits d2 hd2dig
  simp only [isNoteShapeB, hdata, hrun, hdropa, hd2run]
  simp [ha3, ha5, hb3, List.length_append]
  omega

theorem attemptNumero_token (t : List Char) (L n : Nat)
    (hL : matchNoteToken t = some L) (hn : L ≤ n) :
    attemptNumero (stripL (t.take n)) = some (t.take L) ∧
    isNoteShapeB (String.mk (t.take L)) = true ∧
    (t.take L) <+: stripL (t.take n) ∧
    stripL (t.take L) = t.take L := by
  obtain ⟨ha3, ha5, rest, hdrop, hb3, hLeq⟩ := matchNoteToken_spec t L hL
  have haT : digitRunLen t ≤ t.length := digitRunLen_le_length t
  have hbT : digitRunLen rest ≤ rest.length := digitRunLen_le_length rest
  have hd1len : (t.take (digitRunLen t)).length = digitRunLen t := by
    simp [List.length_take]
    omega
  have hd2len : (rest.take (digitRunLen rest)).length = digitRunLen rest := by
    simp [List.length_take]
    omega
  have hd1dig : ∀ c ∈ t.take (digitRunLen t), c.isDigit = true := take_digitRun_digits t
  have hd2dig : ∀ c ∈ rest.take (digitRunLen rest), c.isDigit = true :=
    take_digitRun_digits rest
  have ht : t = t.take (digitRunLen t) ++ '-' :: rest := by
    rw [← hdrop]
    exact (List.take_append_drop _ t).symm
  have hrest : rest = rest.take (digitRunLen rest) ++ rest.drop (digitRunLen rest) :=
    (List.take_append_drop _ rest).symm
  have htakeL : t.take L = t.take (digitRunLen t) ++ '-' :: rest.take (digitRunLen rest) := by
    conv_lhs => rw [ht]
    rw [List.take_append_eq_append_take,
      List.take_of_length_le (show (t.take (digitRunLen t)).length ≤ L by rw [hd1len]; omega)]
    have h1 : L - (t.take (digitRunLen t)).length = digitRunLen rest + 1 := by
      rw [hd1len]
      omega
    rw [h1, List.take_succ_cons]
  have htaken : t.take n =
      (t.take (digitRunLen t) ++ '-' :: rest.take (digitRunLen rest)) ++
        (rest.drop (digitRunLen rest)).take (n - L) := by
    conv_lhs => rw [ht]
    rw [List.take_append_eq_append_take,
      List.take_of_length_le (show (t.take (digitRunLen t)).length ≤ n by rw [hd1len]; omega)]
    have h1 : n - (t.take (digitRunLen t)).length =
        (n - (t.take (digitRunLen t)).length - 1) + 1 := by
      rw [hd1len]
      omega
    rw [h1, List.take_succ_cons]
    conv_lhs => rw [hrest]
    rw [List.take_append_eq_append_take,
      List.take_of_length_le (show (rest.take (digitRunLen rest)).length ≤
        n - (t.take (digitRunLen t)).length - 1 by rw [hd2len, hd1len]; omega)]
    have h2 : n - (t.take (digitRunLen t)).length - 1 - (rest.take (digitRunLen rest)).length =
        n - L := by
      rw [hd2len, hd1len]
      omega
    rw [h2]
    simp [List.append_assoc]
  have htokne : t.take (digitRunLen t) ++ '-' :: rest.take (digitRunLen rest) ≠ [] := by simp
  have htokns : ∀ c ∈ t.take (digitRunLen t) ++ '-' :: rest.take (digitRunLen rest),
      isSpaceB c = false := by
    intro c hc
    rcases List.mem_append.1 hc with h1 | h2
    · exact isSpaceB_of_isDigit c (hd1dig c h1)
    · rcases List.mem_cons.1 h2 with rfl | h3
      · rfl
      · exact isSpaceB_of_isDigit c (hd2dig c h3)
  have hstrip : stripL (t.take n) =
      (t.take (digitRunLen t) ++ '-' :: rest.take (digitRunLen rest)) ++
        rstripL ((rest.drop (digitRunLen rest)).take (n - L)) := by
    rw [htaken]
    exact stripL_nonspace_prefix _ _ htokne htokns
  have hz : rstripL ((rest.drop (digitRunLen rest)).take (n - L)) = [] ∨
      ∃ c l2, rstripL ((rest.drop (digitRunLen rest)).take (n - L)) = c :: l2 ∧
        c.isDigit = false := by
    rcases drop_digitRun rest with h0 | ⟨c, r3, hcr, hcd⟩
    · left
      rw [h0]
      simp [rstripL]
    · rw [hcr]
      cases hnL : n - L with
      | zero => exact Or.inl rfl
      | succ k =>
          rw [List.take_succ_cons]
          rcases rstripL_cons_structure c (r3.take k) with h | ⟨l2, h⟩
          · exact Or.inl h
          · exact Or.inr ⟨c, l2, h, hcd⟩
  have hmain := attemptNumero_exact (t.take (digitRunLen t)) (rest.take (digitRunLen rest))
    (rstripL ((rest.drop (digitRunLen rest)).take (n - L)))
    hd1dig hd2dig (by omega) (by omega) (by omega) hz
  refine ⟨?_, ?_, ?_, ?_⟩
  · rw [hstrip, htakeL]
    exact hmain
  · rw [htakeL]
    exact isNoteShapeB_exact _ _ hd1dig hd2dig (by omega) (by omega) (by omega)
  · rw [hstrip, htakeL]
    exact List.prefix_append _ _
  · rw [htakeL]
    exact stripL_all_nonspace _ htokns

theorem lookup_numero (b : String) (h : Header) :
    lookupV (parse_block b h) "numero_nota" = Value.str (numero_nota_f b.data) := by
  rw [parse_block_eq_pairs]
  rfl

/-- In fallback mode every segmented block starts, after its strip,
with the capital letter of the order label, so the anchored note-id
find fails and the field is empty. -/
theorem fallback_block_numero (text : String) (hP : notePositions text.data = [])
    (block : String) (hmem : block ∈ split_notes_blocks text) :
    numero_nota_f block.data = "" := by
  by_cases hF : pedidoPositions text.data = []
  · rw [split_eq_empty text hP hF] at hmem
    simp at hmem
  · rw [split_eq_fallback text hP hF] at hmem
    obtain ⟨s, e, endp, hms, hle, heq⟩ := mem_buildBlocks text.data (pedidoMatches text.data)
      block hmem (pedidoMatches_chain _) (fun m hm => (pedidoMatches_facts _ m hm).2)
    obtain ⟨q0, hq0⟩ := scanMatches_attempts _ _ _ _ _ hms
    obtain ⟨hs, hlt, hlen, q, r, hpq, hqe, hdropq, hws⟩ :=
      tryPedidoAt_spec text.data q0 s e (by simpa using hq0)
    rw [hs] at heq
    have hqlt : q < text.data.length := by
      by_contra hc
      rw [List.drop_eq_nil_of_le (by omega)] at hdropq
      simp at hdropq
    have hslice2 : sliceL text.data q0 endp = (text.data.drop q0).take (endp - q0) :=
      List.drop_take _ _ _
    have hAlen : ((text.data.drop q0).take (q - q0)).length = q - q0 := by
      simp only [List.length_take, List.length_drop]
      omega
    have hBdrop : (text.data.drop q0).drop (q - q0) = text.data.drop q := by
      rw [List.drop_drop]
      congr 1
      omega
    have hdecomp : text.data.drop q0 =
        (text.data.drop q0).take (q - q0) ++ text.data.drop q := by
      rw [← hBdrop]
      exact (List.take_append_drop _ _).symm
    have hsplit : (text.data.drop q0).take (endp - q0) =
        (text.data.drop q0).take (q - q0) ++ (text.data.drop q).take (endp - q) := by
      conv_lhs => rw [hdecomp]
      rw [List.take_append_eq_append_take,
        List.take_of_length_le (show ((text.data.drop q0).take (q - q0)).length ≤ endp - q0 by
          rw [hAlen]; omega), hAlen]
      have h2 : endp - q0 - (q - q0) = endp - q := by omega
      rw [h2]
    obtain ⟨X, hP1⟩ : ∃ X, (text.data.drop q).take (endp - q) = 'P' :: X := by
      refine ⟨r.take (endp - q - 1), ?_⟩
      rw [hdropq]
      obtain ⟨k, hk⟩ : ∃ k, endp - q = k + 1 := ⟨endp - q - 1, by omega⟩
      rw [hk, List.take_succ_cons]
      simp
    have hA_eq : (text.data.drop q0).take (q - q0) = sliceL text.data q0 q :=
      (List.drop_take q q0 text.data).symm
    have hstr : stripL (sliceL text.data q0 endp) = rstripL ('P' :: X) := by
      rw [hslice2, hsplit, hP1]
      unfold stripL
      rw [dropWhile_append_all _ _ (fun c hc => hws c (hA_eq ▸ hc))]
      rw [List.dropWhile_cons, if_neg (by decide)]
    obtain ⟨l2, hl2⟩ := rstripL_cons_nonspace 'P' X (by decide)
    have hbdata : block.data = 'P' :: l2 := by
      rw [heq]
      show stripL (sliceL text.data q0 endp) = 'P' :: l2
      rw [hstr, hl2]
    rw [hbdata]
    unfold numero_nota_f
    rw [attemptNumero_head_nondigit 'P' l2 (by decide) (by decide)]
    rfl

/-- In primary mode every segmented block opens with the matched
note-id token, which the anchored find returns whole. -/
theorem primary_block_numero (text : String) (block : String)
    (hP : notePositions text.data ≠ []) (hmem : block ∈ split_notes_blocks text) :
    ∃ tok : List Char, attemptNumero block.data = some tok ∧ stripL tok = tok ∧
      isNoteShapeB (String.mk tok) = true ∧ tok <+: block.data := by
  rw [split_eq_primary text hP] at hmem
  obtain ⟨s, e, endp, hms, hle, heq⟩ := mem_buildBlocks text.data (noteMatches text.data)
    block hmem (noteMatches_chain _) (fun m hm => (noteMatches_facts _ m hm).2)
  obtain ⟨q, hq⟩ := scanMatches_attempts _ _ _ _ _ hms
  obtain ⟨hps, L, hL, he⟩ := tryNoteAt_spec text.data q s e (by simpa using hq)
  have hslice : sliceL text.data s endp = (text.data.drop s).take (endp - s) :=
    List.drop_take _ _ _
  have hn : L ≤ endp - s := by omega
  obtain ⟨hA, hshape, hpre, hsid⟩ := attemptNumero_token (text.data.drop s) L (endp - s) hL hn
  refine ⟨(text.data.drop s).take L, ?_, hsid, hshape, ?_⟩
  · rw [heq]
    show attemptNumero (stripL (sliceL text.data s endp)) = _
    rw [hslice]
    exact hA
  · rw [heq]
    show _ <+: stripL (sliceL text.data s endp)
    rw [hslice]
    exact hpre

/-! ## C6 — shape of numero_nota -/

/-- C6: for every block the segmenter produces, the numero_nota field
of the parsed record is either the empty string or a note-id token of
the shape three-to-five digits, a hyphen, at least three digits,
anchored at the block's start. -/
theorem c6_numero_nota_shape (text : String) (header : Header) (block : String)
    (hmem : block ∈ split_notes_blocks text) :
    ∃ nn : String, lookupV (parse_block block header) "numero_nota" = Value.str nn ∧
      (nn = "" ∨ (isNoteShapeB nn = true ∧ nn.data <+: block.data)) := by
  refine ⟨numero_nota_f block.data, lookup_numero block header, ?_⟩
  by_cases hP : notePositions text.data = []
  · exact Or.inl (fallback_block_numero text hP block hmem)
  · obtain ⟨tok, hA, hsid, hshape, hpre⟩ := primary_block_numero text block hP hmem
    right
    have hnn : numero_nota_f block.data = String.mk tok := by
      unfold numero_nota_f
      rw [hA]
      show String.mk (stripL tok) = String.mk tok
      rw [hsid]
    rw [hnn]
    exact ⟨hshape, hpre⟩

/-- Witness for C6 at a concrete primary-mode document. -/
theorem c6_witness :
    ∃ nn : String,
      lookupV (parse_block ((split_notes_blocks "111-2224\nCidade: Z").headD "")
          ⟨"", "", "", "", "", ""⟩) "numero_nota" = Value.str nn ∧
      (nn = "" ∨ (isNoteShapeB nn = true ∧
        nn.data <+: ((split_notes_blocks "111-2224\nCidade: Z").headD "").data)) :=
  c6_numero_nota_shape "111-2224\nCidade: Z" ⟨"", "", "", "", "", ""⟩ _ (by decide)

/-! ## C9 — fallback mode leaves numero_nota empty -/

/-- C9: when the primary note-id pattern matches nowhere in the
document, so that segmentation falls back to the order-label
delimiters, every produced record has an empty numero_nota. -/
theorem c9_fallback_numero_empty (text : String) (hP : notePositions text.data = [])
    (rec : List (String × Value)) (hmem : rec ∈ parse_text_to_records text) :
    lookupV rec "numero_nota" = Value.str "" := by
  rw [parse_text_to_records_eq_map] at hmem
  obtain ⟨b, hb, rfl⟩ := List.mem_map.1 hmem
  rw [lookup_numero, fallback_block_numero text hP b hb]

/-- Witness for C9 at a concrete fallback-mode document. -/
theorem c9_witness :
    lookupV ((parse_text_to_records "Pedido: 9").headD []) "numero_nota" = Value.str "" :=
  c9_fallback_numero_empty "Pedido: 9" (by decide) _ (by decide)

/-! ## C4 — parse_br_number -/

set_option maxHeartbeats 1000000 in
/-- C4: NumberNormalizer maps null and empty or whitespace-only input
to null; any other input is stripped, its dots removed, its commas
turned into dots and handed to the float parser, whose failure gives
null (the function is total, so it never raises); and the contract
values hold: 5.458,96 is 5458.96, 1.234.567,89 is 1234567.89, the
empty string and null are null, abc is null. -/
theorem c4_parse_br_number_contract :
    parse_br_number (none : Option String) = none ∧
    (∀ s : String, stripL s.data = [] → parse_br_number (some s) = none) ∧
    (∀ s : String, stripL s.data ≠ [] → parse_br_number (some s) = parsePyFloat (brDigits s)) ∧
    (∀ s : String, parsePyFloat (brDigits s) = none → parse_br_number (some s) = none) ∧
    parse_br_number (some "5.458,96") = some (PyFloat.finite 5458.96) ∧
    parse_br_number (some "1.234.567,89") = some (PyFloat.finite 1234567.89) ∧
    parse_br_number (some "") = none ∧
    parse_br_number (some "abc") = none := by
  refine ⟨rfl, ?_, ?_, ?_, ?_, ?_, rfl, rfl⟩
  · intro s h
    simp [parse_br_number, h]
  · intro s h
    exact parse_br_number_nonempty s h
  · intro s h
    by_cases he : stripL s.data = []
    · simp [parse_br_number, he]
    · rw [parse_br_number_nonempty s he]
      exact h
  · with_unfolding_all rfl
  · with_unfolding_all rfl

/-- Witness for C4 at concrete inputs: a whitespace-only string and an
unparsable string both come out null. -/
theorem c4_witness :
    parse_br_number (some "   ") = none ∧ parse_br_number (some "abc") = none :=
  ⟨c4_parse_br_number_contract.2.1 "   " (by decide),
   c4_parse_br_number_contract.2.2.2.1 "abc" (by decide)⟩

/-! ## C5 — format_date_br -/

/-- C5: DateNormalizer renders the canonical four-digit-year form when
the input parses strictly in the first format, or failing that in the
two-digit-year format; when neither parses it returns the input
stripped of surrounding whitespace (the function is total, never null,
never raises); and 01/02/24 becomes 01/02/2024, not-a-date and the
empty string pass through. -/
theorem c5_format_date_br_contract :
    (∀ (s : String) (t : Nat × Nat × Nat),
        strptime_dmY s.data = some t → format_date_br s = renderDMY t) ∧
    (∀ (s : String) (t : Nat × Nat × Nat),
        strptime_dmY s.data = none → strptime_dmy s.data = some t →
          format_date_br s = renderDMY t) ∧
    (∀ s : String, strptime_dmY s.data = none → strptime_dmy s.data = none →
        format_date_br s = String.mk (stripL s.data)) ∧
    format_date_br "01/02/24" = "01/02/2024" ∧
    format_date_br "not-a-date" = "not-a-date" ∧
    format_date_br "" = "" := by
  refine ⟨?_, ?_, ?_, by decide, by decide, rfl⟩
  · intro s t h
    have hs : s ≠ "" := by
      rintro rfl
      simp [strptime_dmY, matchDMY, dayCands, firstSome, validDate] at h
    simp [format_date_br, hs, h]
  · intro s t h1 h2
    have hs : s ≠ "" := by
      rintro rfl
      simp [strptime_dmy, matchDMy, dayCands, firstSome, validDate] at h2
    simp [format_date_br, hs, h1, h2]
  · intro s h1 h2
    by_cases hs : s = ""
    · subst hs; rfl
    · simp [format_date_br, hs, h1, h2]

/-- Witness for C5 at concrete inputs: a strict four-digit date, a
two-digit date and a non-date. -/
theorem c5_witness :
    format_date_br "03/04/2024" = renderDMY (3, 4, 2024) ∧
    format_date_br "05/06/24" = renderDMY (5, 6, 2024) ∧
    format_date_br "zz" = String.mk (stripL "zz".data) :=
  ⟨c5_format_date_br_contract.1 "03/04/2024" (3, 4, 2024) (by decide),
   c5_format_date_br_contract.2.1 "05/06/24" (5, 6, 2024) (by decide) (by decide),
   c5_format_date_br_contract.2.2.1 "zz" (by decide) (by decide)⟩

/-! ## C8 — no core parsing operation raises -/

/-- C8: every core operation is total (header extraction, segmentation,
block parsing, number and date normalisation are Lean functions, so no
exception exists to raise), and failure degrades as the specification
says for every field: an unmatched label or pattern leaves the empty
string (route line, the five labelled header fields, note id, client
code and name, order, city, address, receivable pair), an unparsable or
absent number leaves None (weight, total, receivable value), and an
unparsable date leaves the stripped original. -/
theorem c8_failure_degradation :
    (∀ (b : String) (h : Header),
        searchCap (attemptRestOfLine (litSets "pedido:")) b.data = none →
        lookupV (parse_block b h) "pedido" = Value.str "") ∧
    (∀ (b : String) (h : Header),
        searchCap (attemptRestOfLine (litSets "cidade:")) b.data = none →
        lookupV (parse_block b h) "cidade" = Value.str "") ∧
    (∀ (b : String) (h : Header),
        searchCap (attemptRestOfLine labelEndereco) b.data = none →
        lookupV (parse_block b h) "endereco" = Value.str "") ∧
    (∀ (b : String) (h : Header), searchCap attemptDup b.data = none →
        lookupV (parse_block b h) "forma_recebimento" = Value.str "" ∧
        lookupV (parse_block b h) "valor_recebimento" = Value.none) ∧
    (∀ t : String, searchCap (attemptRestOfLine labelMotorista) t.data = none →
        (extract_header_fields t).motorista = "") ∧
    (∀ s : String, parsePyFloat (brDigits s) = none → parse_br_number (some s) = none) ∧
    (∀ s : String, strptime_dmY s.data = none → strptime_dmy s.data = none →
        format_date_br s = String.mk (stripL s.data)) ∧
    (∀ (b : String) (h : Header),
        searchCap (attemptRestOfLine (litSets "nome:")) b.data = none →
        lookupV (parse_block b h) "codigo_cliente" = Value.str "" ∧
        lookupV (parse_block b h) "nome_cliente" = Value.str "") ∧
    (∀ (b : String) (h : Header), attemptNumero b.data = none →
        lookupV (parse_block b h) "numero_nota" = Value.str "") ∧
    (∀ (b : String) (h : Header), searchCap attemptPeso b.data = none →
        lookupV (parse_block b h) "peso_pedido" = Value.none) ∧
    (∀ (b : String) (h : Header), searchCap attemptTotal b.data = none →
        lookupV (parse_block b h) "total_nota" = Value.none) ∧
    (∀ t : String, searchCap (attemptDateTok labelEmissao) t.data = none →
        (extract_header_fields t).data_emissao = "") ∧
    (∀ t : String, searchCap (attemptDateTok labelPrevisao) t.data = none →
        (extract_header_fields t).data_previsao = "") ∧
    (∀ t : String, searchCap (attemptRestOfLine labelVeiculo) t.data = none →
        (extract_header_fields t).veiculo = "") ∧
    (∀ t : String, searchCap attemptCarga t.data = none →
        (extract_header_fields t).carga = "") ∧
    (∀ t : String,
        ((((splitlinesL t.data).map stripL).filter (fun l => !l.isEmpty)).find?
          rotaMatchB) = none →
        (extract_header_fields t).rota = "") := by
  refine ⟨?_, ?_, ?_, ?_, ?_, ?_, ?_, ?_, ?_, ?_, ?_, ?_, ?_, ?_, ?_, ?_⟩
  · intro b h hn
    have hl : lookupV (parse_block b h) "pedido" = Value.str (pedido_f b.data) := by
      rw [parse_block_eq_pairs]
      rfl
    rw [hl]
    unfold pedido_f
    rw [hn]
    rfl
  · intro b h hn
    have hl : lookupV (parse_block b h) "cidade" = Value.str (cidade_f b.data) := by
      rw [parse_block_eq_pairs]
      rfl
    rw [hl]
    unfold cidade_f
    rw [hn]
    rfl
  · intro b h hn
    have hl : lookupV (parse_block b h) "endereco" = Value.str (endereco_f b.data) := by
      rw [parse_block_eq_pairs]
      rfl
    rw [hl]
    unfold endereco_f
    rw [hn]
    rfl
  · intro b h hn
    constructor
    · have hl : lookupV (parse_block b h) "forma_recebimento" =
          Value.str (forma_f b.data) := by
        rw [parse_block_eq_pairs]
        rfl
      rw [hl]
      unfold forma_f dup_f
      rw [hn]
    · have hl : lookupV (parse_block b h) "valor_recebimento" =
          numValue (valor_f b.data) := by
        rw [parse_block_eq_pairs]
        rfl
      rw [hl]
      unfold valor_f dup_f
      rw [hn]
      rfl
  · intro t hn
    show strOfFind (searchCap (attemptRestOfLine labelMotorista) t.data) = ""
    rw [hn]
    rfl
  · intro s hn
    by_cases he : stripL s.data = []
    · simp [parse_br_number, he]
    · rw [parse_br_number_nonempty s he]
      exact hn
  · intro s h1 h2
    by_cases hs : s = ""
    · subst hs
      rfl
    · simp [format_date_br, hs, h1, h2]
  · intro b h hn
    have h0 : nome_line_f b.data = "" := by
      unfold nome_line_f
      rw [hn]
      rfl
    have hcn : codigo_nome_f b.data = ("", "") := by
      unfold codigo_nome_f
      rw [h0]
      rfl
    constructor
    · have hl : lookupV (parse_block b h) "codigo_cliente" =
          Value.str (codigo_nome_f b.data).1 := by
        rw [parse_block_eq_pairs]
        rfl
      rw [hl, hcn]
    · have hl : lookupV (parse_block b h) "nome_cliente" =
          Value.str (codigo_nome_f b.data).2 := by
        rw [parse_block_eq_pairs]
        rfl
      rw [hl, hcn]
  · intro b h hn
    rw [lookup_numero]
    unfold numero_nota_f
    rw [hn]
    rfl
  · intro b h hn
    have hl : lookupV (parse_block b h) "peso_pedido" =
        numValue (peso_pedido_f b.data) := by
      rw [parse_block_eq_pairs]
      rfl
    rw [hl]
    unfold peso_pedido_f
    rw [hn]
    rfl
  · intro b h hn
    have hl : lookupV (parse_block b h) "total_nota" =
        numValue (total_nota_f b.data) := by
      rw [parse_block_eq_pairs]
      rfl
    rw [hl]
    unfold total_nota_f
    rw [hn]
    rfl
  · intro t hn
    show strOfFind (searchCap (attemptDateTok labelEmissao) t.data) = ""
    rw [hn]
    rfl
  · intro t hn
    show strOfFind (searchCap (attemptDateTok labelPrevisao) t.data) = ""
    rw [hn]
    rfl
  · intro t hn
    show strOfFind (searchCap (attemptRestOfLine labelVeiculo) t.data) = ""
    rw [hn]
    rfl
  · intro t hn
    show strOfFind (searchCap attemptCarga t.data) = ""
    rw [hn]
    rfl
  · intro t hn
    show (match (((splitlinesL t.data).map stripL).filter (fun l => !l.isEmpty)).find?
        rotaMatchB with
      | some l => String.mk l
      | none => "") = ""
    rw [hn]

/-- Witness for C8 on a block and strings where every search fails. -/
theorem c8_witness :
    lookupV (parse_block "zzz" ⟨"h1", "h2", "h3", "h4", "h5", "h6"⟩) "pedido" =
      Value.str "" ∧
    lookupV (parse_block "zzz" ⟨"h1", "h2", "h3", "h4", "h5", "h6"⟩) "forma_recebimento" =
      Value.str "" ∧
    (extract_header_fields "zzz").motorista = "" ∧
    parse_br_number (some "x9") = none ∧
    format_date_br " q " = String.mk (stripL " q ".data) ∧
    lookupV (parse_block "zzz" ⟨"h1", "h2", "h3", "h4", "h5", "h6"⟩) "nome_cliente" =
      Value.str "" ∧
    lookupV (parse_block "zzz" ⟨"h1", "h2", "h3", "h4", "h5", "h6"⟩) "numero_nota" =
      Value.str "" ∧
    lookupV (parse_block "zzz" ⟨"h1", "h2", "h3", "h4", "h5", "h6"⟩) "peso_pedido" =
      Value.none ∧
    (extract_header_fields "zzz").data_emissao = "" ∧
    (extract_header_fields "zzz").carga = "" ∧
    (extract_header_fields "zzz").rota = "" :=
  ⟨c8_failure_degradation.1 "zzz" ⟨"h1", "h2", "h3", "h4", "h5", "h6"⟩ (by decide),
   (c8_failure_degradation.2.2.2.1 "zzz" ⟨"h1", "h2", "h3", "h4", "h5", "h6"⟩ (by decide)).1,
   c8_failure_degradation.2.2.2.2.1 "zzz" (by decide),
   c8_failure_degradation.2.2.2.2.2.1 "x9" (by decide),
   c8_failure_degradation.2.2.2.2.2.2.1 " q " (by decide) (by decide),
   (c8_failure_degradation.2.2.2.2.2.2.2.1 "zzz"
     ⟨"h1", "h2", "h3", "h4", "h5", "h6"⟩ (by decide)).2,
   c8_failure_degradation.2.2.2.2.2.2.2.2.1 "zzz"
     ⟨"h1", "h2", "h3", "h4", "h5", "h6"⟩ (by decide),
   c8_failure_degradation.2.2.2.2.2.2.2.2.2.1 "zzz"
     ⟨"h1", "h2", "h3", "h4", "h5", "h6"⟩ (by decide),
   c8_failure_degradation.2.2.2.2.2.2.2.2.2.2.2.1 "zzz" (by decide),
   c8_failure_degradation.2.2.2.2.2.2.2.2.2.2.2.2.2.2.1 "zzz" (by decide),
   c8_failure_degradation.2.2.2.2.2.2.2.2.2.2.2.2.2.2.2 "zzz" (by decide)⟩

/-! ## C10 — non-Brazilian inputs the float parser accepts -/

set_option maxHeartbeats 1000000 in
/-- C10: NumberNormalizer returns a number, not null, for inputs
outside the Brazilian digits-dot-comma convention, because after the
separator substitution any float literal of the host parser is
accepted: an exponent form gives 1000, a bare negative integer gives
-2, and inf gives a non-null infinite value. -/
theorem c10_host_float_literals :
    parse_br_number (some "1e3") = some (PyFloat.finite 1000) ∧
    parse_br_number (some "-2") = some (PyFloat.finite (-2)) ∧
    parse_br_number (some "inf") = some (PyFloat.inf false) := by
  refine ⟨by with_unfolding_all rfl, by with_unfolding_all rfl, rfl⟩

/-! ## C1 — end to end on the specification's document -/

set_option maxHeartbeats 4000000 in
set_option maxRecDepth 100000 in
/-- C1: on the specification's document the pipeline produces exactly
one record, whose sixteen fields are the header values of the five
header lines (with empty carga) and the note fields of the single
block: rota 600 PEDRO LEOPOLDO, emission 01/01/2024, note number
1552-24995, client code 10 named Cliente X, order 99, city BH, weight
10.5, address Rua A, total 100.0, receivable form Boleto with value
100.0. -/
theorem c1_end_to_end :
    parse_text_to_records c1_input =
      [[("rota", Value.str "600 PEDRO LEOPOLDO"),
        ("data_emissao", Value.str "01/01/2024"),
        ("data_previsao", Value.str "02/01/2024"),
        ("motorista", Value.str "João"),
        ("veiculo", Value.str "ABC-1234"),
        ("carga", Value.str ""),
        ("numero_nota", Value.str "1552-24995"),
        ("codigo_cliente", Value.str "10"),
        ("nome_cliente", Value.str "Cliente X"),
        ("pedido", Value.str "99"),
        ("cidade", Value.str "BH"),
        ("peso_pedido", Value.num (PyFloat.finite 10.5)),
        ("endereco", Value.str "Rua A"),
        ("total_nota", Value.num (PyFloat.finite 100.0)),
        ("forma_recebimento", Value.str "Boleto"),
        ("valor_recebimento", Value.num (PyFloat.finite 100.0))]] := by
  with_unfolding_all rfl

end Romaneio
